import Mathlib

/-!
Shallow embedding of the qpdf-rs binding (ancwrd1/qpdf-rs).

The binding is a safe Rust layer over the native qpdf engine's opaque-handle
C API.  The engine itself is an external collaborator; its primitives
(`qpdf_sys::*`) are modelled here as explicit state transitions on a
per-document state (`DocState`) holding a handle table (`qpdf_oh` values
mapped to graph nodes) and a node store, following the engine's documented
interface contract: handles are freshly allocated integers, container values
alias nodes, out-of-range array indices are rejected by the engine without
modification, and `qpdf_get_error` consumes the error condition.

The Rust functions of the crate (`lib.rs`, `object.rs`, `array.rs`,
`dict.rs`, `writer.rs`, `error.rs`) are translated one-to-one on top of
those primitives.  `CString::new` is modelled by `cstring_new`, which fails
exactly on strings containing an embedded NUL byte; a Rust `unwrap` on that
result is modelled by an `Option` result where `none` is the panic outcome.
-/

set_option autoImplicit false

namespace QpdfRs

/-! ### Association-list primitives
Used for the engine's handle table, node store and dictionary entries. -/

/-- First-match lookup in an association list. -/
def alookup {κ α : Type} [DecidableEq κ] (k : κ) : List (κ × α) → Option α
  | [] => none
  | (k1, v) :: rest => if k = k1 then some v else alookup k rest

/-- Replace the value of the first matching key; no effect if the key is absent. -/
def aupd {κ α : Type} [DecidableEq κ] (k : κ) (v : α) : List (κ × α) → List (κ × α)
  | [] => []
  | (k1, v1) :: rest => if k = k1 then (k, v) :: rest else (k1, v1) :: aupd k v rest

/-- Insert-or-replace: replace the first matching key, append if absent. -/
def dinsert {κ α : Type} [DecidableEq κ] (k : κ) (v : α) : List (κ × α) → List (κ × α)
  | [] => [(k, v)]
  | (k1, v1) :: rest => if k = k1 then (k, v) :: rest else (k1, v1) :: dinsert k v rest

/-- Erase every binding of the key (the engine's maps have unique keys). -/
def aerase {κ α : Type} [DecidableEq κ] (k : κ) (l : List (κ × α)) : List (κ × α) :=
  l.filter fun p => !(decide (p.1 = k))

/-! ### Engine data model -/

/-- PDF object values stored in the engine's per-document object graph.
Container values hold node ids (references into the node store): mutation
through one handle is visible through every handle aliasing the same node. -/
inductive PdfValue : Type where
  | uninitialized : PdfValue
  | reserved : PdfValue
  | null : PdfValue
  | boolean : Bool → PdfValue
  | integer : Int → PdfValue
  | real : String → PdfValue
  | string : String → PdfValue
  | name : String → PdfValue
  | array : List Nat → PdfValue
  | dict : List (String × Nat) → PdfValue
  | stream : PdfValue
  | operator : String → PdfValue
  | inlineimage : PdfValue
deriving DecidableEq, Repr

/-- `QpdfObjectType` from `object.rs` — the closed variant set of the binding. -/
inductive QpdfObjectType : Type where
  | Uninitialized | Reserved | Null | Boolean | Integer | Real
  | String | Name | Array | Dictionary | Stream | Operator | InlineImage
deriving DecidableEq, Repr

/-- Engine-side graph node: a value plus the indirect-object id/generation
(both 0 for direct objects). -/
structure Node where
  value : PdfValue
  objId : Nat
  gen : Nat
deriving DecidableEq, Repr

instance : Inhabited Node := ⟨⟨PdfValue.uninitialized, 0, 0⟩⟩

/-- `qpdf_error_code_e` of the engine's C API. -/
inductive EngineErrorCode : Type where
  | success | internal | system | unsupported | password
  | damaged_pdf | pages | object_error | other
deriving DecidableEq, Repr

/-- The engine's per-document error record (code, optional message detail,
byte position), as read by `qpdf_get_error*`. -/
structure EngineError where
  code : EngineErrorCode
  detail : Option String
  position : Nat
deriving DecidableEq, Repr

/-- Per-document engine state: the opaque `qpdf_data` context.  `handles`
maps live `qpdf_oh` values to node ids; `nodes` is the object graph;
`foreignDocs` is the document's foreign-document set from the spec's data
model (other documents kept alive because objects were copied from them);
`errorState` is the engine's stateful error condition. -/
structure DocState where
  docid : Nat
  handles : List (Nat × Nat)
  nodes : List (Nat × Node)
  nextOh : Nat
  nextNode : Nat
  nextObjId : Nat
  foreignDocs : List Nat
  errorState : Option EngineError
deriving DecidableEq, Repr

/-- A freshly created document context (`qpdf_init`). -/
def emptyDoc (i : Nat) : DocState :=
  { docid := i, handles := [], nodes := [], nextOh := 1, nextNode := 1,
    nextObjId := 1, foreignDocs := [], errorState := none }

/-! ### Engine primitives (`qpdf_sys`)
Each is a state transition on `DocState`, modelled from the qpdf C API
contract (spec section 6). -/

/-- Allocate a fresh `qpdf_oh` handle bound to the given node. -/
def engAllocHandle (s : DocState) (n : Nat) : DocState × Nat :=
  ({ s with handles := (s.nextOh, n) :: s.handles, nextOh := s.nextOh + 1 }, s.nextOh)

/-- Node id a handle refers to (0 when the handle is not live). -/
def engNode (s : DocState) (oh : Nat) : Nat :=
  (alookup oh s.handles).getD 0

/-- Whether a handle is live in the handle table. -/
def ohLive (s : DocState) (oh : Nat) : Bool :=
  (alookup oh s.handles).isSome

/-- Well-formedness of the handle table: every live handle was allocated
below the allocation counter (true of every state the engine produces). -/
def handlesBounded (s : DocState) : Bool :=
  s.handles.all fun p => decide (p.1 < s.nextOh)

/-- Node record of a node id (default uninitialized node when absent). -/
def engNodeData (s : DocState) (n : Nat) : Node :=
  (alookup n s.nodes).getD default

/-- Value of the node a handle refers to. -/
def engValue (s : DocState) (oh : Nat) : PdfValue :=
  (engNodeData s (engNode s oh)).value

/-- Overwrite the value of a node in place (aliasing handles see the change). -/
def engSetNodeValue (s : DocState) (n : Nat) (v : PdfValue) : DocState :=
  { s with nodes := aupd n { engNodeData s n with value := v } s.nodes }

/-- Allocate a fresh direct node with the given value. -/
def engNewNode (s : DocState) (v : PdfValue) : DocState × Nat :=
  ({ s with nodes := (s.nextNode, ⟨v, 0, 0⟩) :: s.nodes, nextNode := s.nextNode + 1 },
   s.nextNode)

/-- Allocate a fresh direct node and a fresh handle to it (the engine's
object constructors `qpdf_oh_new_*`). -/
def engNewObject (s : DocState) (v : PdfValue) : DocState × Nat :=
  let p := engNewNode s v
  engAllocHandle p.1 p.2

/-- `qpdf_oh_new_object`: a fresh handle to the same node (the engine-side
reference bump performed by `Clone`). -/
def qpdf_oh_new_object (s : DocState) (oh : Nat) : DocState × Nat :=
  engAllocHandle s (engNode s oh)

/-- `qpdf_oh_release`: release one handle; other handles are unaffected. -/
def qpdf_oh_release (s : DocState) (oh : Nat) : DocState :=
  { s with handles := aerase oh s.handles }

/-- `qpdf_oh_get_type_code`. -/
def qpdf_oh_get_type_code (s : DocState) (oh : Nat) : QpdfObjectType :=
  match engValue s oh with
  | .uninitialized => .Uninitialized
  | .reserved => .Reserved
  | .null => .Null
  | .boolean _ => .Boolean
  | .integer _ => .Integer
  | .real _ => .Real
  | .string _ => .String
  | .name _ => .Name
  | .array _ => .Array
  | .dict _ => .Dictionary
  | .stream => .Stream
  | .operator _ => .Operator
  | .inlineimage => .InlineImage

/-- `qpdf_oh_is_null`. -/
def qpdf_oh_is_null (s : DocState) (oh : Nat) : Bool :=
  decide (engValue s oh = PdfValue.null)

/-- `qpdf_oh_is_indirect`: the node carries a nonzero object id. -/
def qpdf_oh_is_indirect (s : DocState) (oh : Nat) : Bool :=
  decide ((engNodeData s (engNode s oh)).objId ≠ 0)

/-- `qpdf_oh_get_object_id`. -/
def qpdf_oh_get_object_id (s : DocState) (oh : Nat) : Nat :=
  (engNodeData s (engNode s oh)).objId

/-- `qpdf_oh_get_generation`. -/
def qpdf_oh_get_generation (s : DocState) (oh : Nat) : Nat :=
  (engNodeData s (engNode s oh)).gen

/-- `qpdf_make_indirect_object`: allocate a fresh object id in the document's
object table, bind a fresh node (copy of the value) to it and return a fresh
handle to that node.  Each call allocates a new id. -/
def qpdf_make_indirect_object (s : DocState) (oh : Nat) : DocState × Nat :=
  let v := engValue s oh
  let n := s.nextNode
  let s1 : DocState :=
    { s with nodes := (n, ⟨v, s.nextObjId, 0⟩) :: s.nodes,
             nextNode := n + 1, nextObjId := s.nextObjId + 1 }
  engAllocHandle s1 n

/-- `qpdf_oh_get_array_n_items` (0 for a non-array). -/
def qpdf_oh_get_array_n_items (s : DocState) (oh : Nat) : Nat :=
  match engValue s oh with
  | .array items => items.length
  | _ => 0

/-- `qpdf_oh_get_array_item`: a fresh handle to the element node; for an
out-of-range index or a non-array the engine returns a fresh null object. -/
def qpdf_oh_get_array_item (s : DocState) (oh : Nat) (i : Nat) : DocState × Nat :=
  match engValue s oh with
  | .array items =>
    match items.get? i with
    | some n => engAllocHandle s n
    | none => engNewObject s PdfValue.null
  | _ => engNewObject s PdfValue.null

/-- `qpdf_oh_set_array_item`: in-range update; out of range the engine
reports an error and leaves the array unchanged. -/
def qpdf_oh_set_array_item (s : DocState) (oh : Nat) (i : Nat) (item : Nat) : DocState :=
  match engValue s oh with
  | .array items =>
    if i < items.length then
      engSetNodeValue s (engNode s oh) (.array (items.set i (engNode s item)))
    else s
  | _ => s

/-- `qpdf_oh_append_item`. -/
def qpdf_oh_append_item (s : DocState) (oh : Nat) (item : Nat) : DocState :=
  match engValue s oh with
  | .array items =>
    engSetNodeValue s (engNode s oh) (.array (items ++ [engNode s item]))
  | _ => s

/-- `qpdf_oh_insert_item`: insert before position `i`; `i = length` appends;
beyond that the engine reports an error and leaves the array unchanged. -/
def qpdf_oh_insert_item (s : DocState) (oh : Nat) (i : Nat) (item : Nat) : DocState :=
  match engValue s oh with
  | .array items =>
    if i ≤ items.length then
      engSetNodeValue s (engNode s oh)
        (.array (items.take i ++ engNode s item :: items.drop i))
    else s
  | _ => s

/-- `qpdf_oh_erase_item`: in-range removal, otherwise no effect. -/
def qpdf_oh_erase_item (s : DocState) (oh : Nat) (i : Nat) : DocState :=
  match engValue s oh with
  | .array items =>
    if i < items.length then
      engSetNodeValue s (engNode s oh)
        (.array (items.take i ++ items.drop (i + 1)))
    else s
  | _ => s

/-- `qpdf_oh_has_key`: key present with a non-null value. -/
def qpdf_oh_has_key (s : DocState) (oh : Nat) (k : String) : Bool :=
  match engValue s oh with
  | .dict entries =>
    match alookup k entries with
    | some n => !(decide ((engNodeData s n).value = PdfValue.null))
    | none => false
  | _ => false

/-- `qpdf_oh_get_key`: a fresh handle to the stored node; for an absent key
or a non-dictionary the engine returns a fresh null object. -/
def qpdf_oh_get_key (s : DocState) (oh : Nat) (k : String) : DocState × Nat :=
  match engValue s oh with
  | .dict entries =>
    match alookup k entries with
    | some n => engAllocHandle s n
    | none => engNewObject s PdfValue.null
  | _ => engNewObject s PdfValue.null

/-- `qpdf_oh_replace_key`: insert-or-replace the entry. -/
def qpdf_oh_replace_key (s : DocState) (oh : Nat) (k : String) (v : Nat) : DocState :=
  match engValue s oh with
  | .dict entries =>
    engSetNodeValue s (engNode s oh) (.dict (dinsert k (engNode s v) entries))
  | _ => s

/-- `qpdf_oh_remove_key`. -/
def qpdf_oh_remove_key (s : DocState) (oh : Nat) (k : String) : DocState :=
  match engValue s oh with
  | .dict entries =>
    engSetNodeValue s (engNode s oh) (.dict (aerase k entries))
  | _ => s

/-- `qpdf_oh_copy_foreign_object` target side: the engine mints a copy of
the foreign value as a fresh node in the target document.  (The engine's
internal deep copy of container contents is abstracted; no theorem below
inspects the copied structure.) -/
def qpdf_oh_copy_foreign_object (tgt : DocState) (src : DocState) (oh : Nat) :
    DocState × Nat :=
  engNewObject tgt (engValue src oh)

/-! ### Error translation (`error.rs`, `lib.rs`) -/

/-- `QPdfErrorCode` from `error.rs`. -/
inductive QPdfErrorCode : Type where
  | Unknown | InvalidParameter | InternalError | SystemError | Unsupported
  | InvalidPassword | DamagedPdf | PagesError | ObjectError
deriving DecidableEq, Repr

/-- `QPdfError` from `error.rs`: error code plus optional description and
byte position. -/
structure QPdfError : Type where
  error_code : QPdfErrorCode
  description : Option String
  position : Option Nat
deriving DecidableEq, Repr

/-- `error_or_ok` from `error.rs`: map the engine's error code to the
binding's closed error-code set (unmapped codes degrade to `Unknown`). -/
def error_or_ok (e : EngineErrorCode) : Except QPdfError Unit :=
  match e with
  | .success => .ok ()
  | .internal => .error ⟨.InternalError, none, none⟩
  | .system => .error ⟨.SystemError, none, none⟩
  | .unsupported => .error ⟨.Unsupported, none, none⟩
  | .password => .error ⟨.InvalidPassword, none, none⟩
  | .damaged_pdf => .error ⟨.DamagedPdf, none, none⟩
  | .pages => .error ⟨.PagesError, none, none⟩
  | .object_error => .error ⟨.ObjectError, none, none⟩
  | .other => .error ⟨.Unknown, none, none⟩

/-- `impl From<NulError> for QPdfError` (`error.rs`): an embedded NUL byte in
a string argument becomes an `InvalidParameter` error. -/
def qpdfErrorOfNul : QPdfError :=
  ⟨.InvalidParameter, some "Unexpected null code in the string parameter", none⟩

/-- `CString::new`: fails exactly when the string contains an embedded NUL. -/
def containsNul (s : String) : Bool :=
  s.data.any fun c => c == Char.ofNat 0

/-- `CString::new` as used by the binding; `none` is the `NulError` case. -/
def cstring_new (s : String) : Option String :=
  if containsNul s then none else some s

/-- `Qpdf::last_error_or_then` (`lib.rs`): query the engine's error flag; on
no error return the value; otherwise read the error record (which consumes
the engine's error condition), map its code, and attach detail and position.
A code that maps to success still returns the value. -/
def last_error_or_then {α : Type} (s : DocState) (val : α) :
    DocState × Except QPdfError α :=
  match s.errorState with
  | none => (s, .ok val)
  | some e =>
    let s1 : DocState := { s with errorState := none }
    match error_or_ok e.code with
    | .ok _ => (s1, .ok val)
    | .error q =>
      (s1, .error { q with description := e.detail, position := some e.position })

/-! ### Object handles (`object.rs`, `lib.rs`) -/

/-- `QpdfObject`: the capability pair of owning document (identity) and the
opaque `qpdf_oh` node reference. -/
structure QpdfObject : Type where
  owner : Nat
  inner : Nat
deriving DecidableEq, Repr

/-- `impl PartialEq for QpdfObject` (`object.rs`): equality compares the
`inner` handle values only. -/
def QpdfObject.eq (x y : QpdfObject) : Bool :=
  x.inner == y.inner

/-- `impl Clone for QpdfObject` (`object.rs`): same owner, fresh engine-side
handle to the same node via `qpdf_oh_new_object`. -/
def QpdfObject.clone (s : DocState) (x : QpdfObject) : DocState × QpdfObject :=
  let p := qpdf_oh_new_object s x.inner
  (p.1, ⟨x.owner, p.2⟩)

/-- `impl Drop for QpdfObject` (`object.rs`): release this handle. -/
def QpdfObject.drop (s : DocState) (x : QpdfObject) : DocState :=
  qpdf_oh_release s x.inner

/-- `QpdfObject::get_type` (`object.rs`). -/
def QpdfObject.get_type (s : DocState) (x : QpdfObject) : QpdfObjectType :=
  qpdf_oh_get_type_code s x.inner

/-- `QpdfObject::is_indirect` (`object.rs`). -/
def QpdfObject.is_indirect (s : DocState) (x : QpdfObject) : Bool :=
  qpdf_oh_is_indirect s x.inner

/-- `QpdfObject::into_indirect` (`object.rs`). -/
def QpdfObject.into_indirect (s : DocState) (x : QpdfObject) : DocState × QpdfObject :=
  let p := qpdf_make_indirect_object s x.inner
  (p.1, ⟨x.owner, p.2⟩)

/-- `QpdfObject::get_id` (`object.rs`). -/
def QpdfObject.get_id (s : DocState) (x : QpdfObject) : Nat :=
  qpdf_oh_get_object_id s x.inner

/-- `QpdfObject::get_generation` (`object.rs`). -/
def QpdfObject.get_generation (s : DocState) (x : QpdfObject) : Nat :=
  qpdf_oh_get_generation s x.inner

/-- `QpdfObject::as_i64` (`object.rs`): integer value, engine default 0 on a
non-integer kind. -/
def QpdfObject.as_i64 (s : DocState) (x : QpdfObject) : Int :=
  match engValue s x.inner with
  | .integer i => i
  | _ => 0

/-! ### Document factory methods (`lib.rs`)
Every factory returns a handle scoped to the document (`owner = docid`). -/

/-- `Qpdf::new_bool`. -/
def Qpdf.new_bool (s : DocState) (value : Bool) : DocState × QpdfObject :=
  let p := engNewObject s (.boolean value)
  (p.1, ⟨s.docid, p.2⟩)

/-- `Qpdf::new_null`. -/
def Qpdf.new_null (s : DocState) : DocState × QpdfObject :=
  let p := engNewObject s .null
  (p.1, ⟨s.docid, p.2⟩)

/-- `Qpdf::new_integer`. -/
def Qpdf.new_integer (s : DocState) (value : Int) : DocState × QpdfObject :=
  let p := engNewObject s (.integer value)
  (p.1, ⟨s.docid, p.2⟩)

/-- `Qpdf::new_name` core (after the `CString::new(value).unwrap()`, which
panics on an embedded NUL — modelled by the `Option` wrapper below). -/
def Qpdf.new_name (s : DocState) (value : String) : Option (DocState × QpdfObject) :=
  match cstring_new value with
  | none => none
  | some v =>
    let p := engNewObject s (.name v)
    some (p.1, ⟨s.docid, p.2⟩)

/-- `Qpdf::new_array` (the `QpdfArray` view is identified with its
underlying handle). -/
def Qpdf.new_array (s : DocState) : DocState × QpdfObject :=
  let p := engNewObject s (.array [])
  (p.1, ⟨s.docid, p.2⟩)

/-- `Qpdf::new_dictionary`. -/
def Qpdf.new_dictionary (s : DocState) : DocState × QpdfObject :=
  let p := engNewObject s (.dict [])
  (p.1, ⟨s.docid, p.2⟩)

/-- `Qpdf::copy_from_foreign` (`lib.rs`): forward to
`qpdf_oh_copy_foreign_object` and wrap the returned handle with `self` as
owner.  The function performs no other step: in particular it never touches
`foreignDocs` of the target document. -/
def Qpdf.copy_from_foreign (s : DocState) (src : DocState) (foreign : QpdfObject) :
    DocState × QpdfObject :=
  let p := qpdf_oh_copy_foreign_object s src foreign.inner
  (p.1, ⟨s.docid, p.2⟩)

/-- `Qpdf::parse_object` (`lib.rs`): `CString::new(object)?` then
`qpdf_oh_parse` then `last_error_or_then`.  The engine's parser is a black
box, passed as `eng` (given the state and text it returns the state after
the call — possibly with the error condition set — and a handle). -/
def Qpdf.parse_object (eng : DocState → String → DocState × Nat)
    (s : DocState) (object : String) : DocState × Except QPdfError QpdfObject :=
  match cstring_new object with
  | none => (s, .error qpdfErrorOfNul)
  | some t =>
    let p := eng s t
    last_error_or_then p.1 (⟨s.docid, p.2⟩ : QpdfObject)

/-- `Qpdf::do_load_memory` (`lib.rs`): the password is converted with
`CString::new(p).ok()`, so a password with an embedded NUL is silently
dropped and the engine is called with a null password pointer.  `eng` is the
black-box `qpdf_read_memory` behaviour, a function of the buffer and of the
password pointer actually passed. -/
def Qpdf.do_load_memory (eng : DocState → List Nat → Option String → DocState)
    (s : DocState) (buf : List Nat) (password : Option String) :
    DocState × Except QPdfError Unit :=
  let rawPassword := password.bind fun p => cstring_new p
  let s1 := eng s buf rawPassword
  last_error_or_then s1 ()

/-! ### Dictionary view (`dict.rs`)
Every keyed operation converts the key with `CString::new(key).unwrap()`:
the outer `Option` result is `none` exactly when that `unwrap` panics. -/

/-- `QpdfDictionary::has`. -/
def QpdfDictionary.has (s : DocState) (d : QpdfObject) (key : String) : Option Bool :=
  match cstring_new key with
  | none => none
  | some k => some (qpdf_oh_has_key s d.inner k)

/-- `QpdfDictionary::get`: fetch the key's node, wrap it, and return it only
when its type is not `Null`; otherwise the temporary handle is dropped and
the result is `None`. -/
def QpdfDictionary.get (s : DocState) (d : QpdfObject) (key : String) :
    Option (DocState × Option QpdfObject) :=
  match cstring_new key with
  | none => none
  | some k =>
    let p := qpdf_oh_get_key s d.inner k
    let obj : QpdfObject := ⟨d.owner, p.2⟩
    if qpdf_oh_get_type_code p.1 p.2 ≠ QpdfObjectType.Null then
      some (p.1, some obj)
    else
      some (qpdf_oh_release p.1 p.2, none)

/-- `QpdfDictionary::set`. -/
def QpdfDictionary.set (s : DocState) (d : QpdfObject) (key : String)
    (value : QpdfObject) : Option DocState :=
  match cstring_new key with
  | none => none
  | some k => some (qpdf_oh_replace_key s d.inner k value.inner)

/-- `QpdfDictionary::remove`. -/
def QpdfDictionary.remove (s : DocState) (d : QpdfObject) (key : String) :
    Option DocState :=
  match cstring_new key with
  | none => none
  | some k => some (qpdf_oh_remove_key s d.inner k)

/-! ### Array view (`array.rs`) -/

/-- `QpdfArray::len`. -/
def QpdfArray.len (s : DocState) (a : QpdfObject) : Nat :=
  qpdf_oh_get_array_n_items s a.inner

/-- `QpdfArray::get`: explicit bounds check in the binding; only an in-range
index reaches the engine. -/
def QpdfArray.get (s : DocState) (a : QpdfObject) (index : Nat) :
    DocState × Option QpdfObject :=
  if index < QpdfArray.len s a then
    let p := qpdf_oh_get_array_item s a.inner index
    (p.1, some ⟨a.owner, p.2⟩)
  else
    (s, none)

/-- `QpdfArray::set`. -/
def QpdfArray.set (s : DocState) (a : QpdfObject) (index : Nat)
    (item : QpdfObject) : DocState :=
  qpdf_oh_set_array_item s a.inner index item.inner

/-- `QpdfArray::push`. -/
def QpdfArray.push (s : DocState) (a : QpdfObject) (item : QpdfObject) : DocState :=
  qpdf_oh_append_item s a.inner item.inner

/-- `QpdfArray::insert`. -/
def QpdfArray.insert (s : DocState) (a : QpdfObject) (index : Nat)
    (item : QpdfObject) : DocState :=
  qpdf_oh_insert_item s a.inner index item.inner

/-- `QpdfArray::remove`. -/
def QpdfArray.remove (s : DocState) (a : QpdfObject) (index : Nat) : DocState :=
  qpdf_oh_erase_item s a.inner index

/-- `Iterator::next` for `QpdfArrayIterator` (`array.rs`): `get` at the
current index, then advance the index. -/
def QpdfArrayIterator.next (s : DocState) (a : QpdfObject) (index : Nat) :
    (DocState × Option QpdfObject) × Nat :=
  (QpdfArray.get s a index, index + 1)

/-- Run the iterator from a given index: repeated `next` until it yields
`None` (bounded by the structural fuel; any fuel past the array length
yields the same items). -/
def QpdfArrayIterator.collect (a : QpdfObject) :
    Nat → DocState → Nat → DocState × List QpdfObject
  | 0, s, _ => (s, [])
  | fuel + 1, s, index =>
    match QpdfArrayIterator.next s a index with
    | ((s1, some o), next) =>
      let rest := QpdfArrayIterator.collect a fuel s1 next
      (rest.1, o :: rest.2)
    | ((_, none), _) => (s, [])

/-! ### Writer configurator (`writer.rs`, `stream.rs`)
The engine applies writer options as global per-document state immediately
before serialization.  The engine calls a write issues are recorded as a
trace (`List EngineCall`); the engine's plain setters store state and do not
raise errors, so the fallible steps are exactly the `CString` conversions of
the staged strings. -/

/-- `StreamDecodeLevel` (`stream.rs`). -/
inductive StreamDecodeLevel : Type where
  | None | Generalized | Specialized | All
deriving DecidableEq, Repr

/-- `ObjectStreamMode` (`stream.rs`). -/
inductive ObjectStreamMode : Type where
  | Disable | Preserve | Generate
deriving DecidableEq, Repr

/-- `StreamDataMode` (`stream.rs`). -/
inductive StreamDataMode : Type where
  | Uncompress | Preserve | Compress
deriving DecidableEq, Repr

/-- `PrintPermission` (`writer.rs`). -/
inductive PrintPermission : Type where
  | Full | Low | None
deriving DecidableEq, Repr

/-- `EncryptionParamsR2` (`writer.rs`). -/
structure EncryptionParamsR2 : Type where
  user_password : String
  owner_password : String
  allow_print : Bool
  allow_modify : Bool
  allow_extract : Bool
  allow_annotate : Bool
deriving DecidableEq, Repr

/-- `EncryptionParamsR3` (`writer.rs`). -/
structure EncryptionParamsR3 : Type where
  user_password : String
  owner_password : String
  allow_accessibility : Bool
  allow_extract : Bool
  allow_assemble : Bool
  allow_annotate_and_form : Bool
  allow_form_filling : Bool
  allow_modify_other : Bool
  allow_print : PrintPermission
deriving DecidableEq, Repr

/-- `EncryptionParamsR4` (`writer.rs`). -/
structure EncryptionParamsR4 : Type where
  user_password : String
  owner_password : String
  allow_accessibility : Bool
  allow_extract : Bool
  allow_assemble : Bool
  allow_annotate_and_form : Bool
  allow_form_filling : Bool
  allow_modify_other : Bool
  allow_print : PrintPermission
  encrypt_metadata : Bool
  use_aes : Bool
deriving DecidableEq, Repr

/-- `EncryptionParamsR6` (`writer.rs`). -/
structure EncryptionParamsR6 : Type where
  user_password : String
  owner_password : String
  allow_accessibility : Bool
  allow_extract : Bool
  allow_assemble : Bool
  allow_annotate_and_form : Bool
  allow_form_filling : Bool
  allow_modify_other : Bool
  allow_print : PrintPermission
  encrypt_metadata : Bool
deriving DecidableEq, Repr

/-- `EncryptionParams` (`writer.rs`). -/
inductive EncryptionParams : Type where
  | R2 : EncryptionParamsR2 → EncryptionParams
  | R3 : EncryptionParamsR3 → EncryptionParams
  | R4 : EncryptionParamsR4 → EncryptionParams
  | R6 : EncryptionParamsR6 → EncryptionParams
deriving DecidableEq, Repr

/-- Engine calls a write issues, in order. -/
inductive EngineCall : Type where
  | initWriteFile : String → EngineCall
  | initWriteMemory : EngineCall
  | setCompressStreams : Bool → EngineCall
  | setPreserveUnreferencedObjects : Bool → EngineCall
  | setContentNormalization : Bool → EngineCall
  | setPreserveEncryption : Bool → EngineCall
  | setLinearization : Bool → EngineCall
  | setStaticId : Bool → EngineCall
  | setDeterministicId : Bool → EngineCall
  | setDecodeLevel : StreamDecodeLevel → EngineCall
  | setObjectStreamMode : ObjectStreamMode → EngineCall
  | setStreamDataMode : StreamDataMode → EngineCall
  | setMinimumPdfVersion : String → EngineCall
  | forcePdfVersion : String → EngineCall
  | setR2EncryptionParameters : String → String → Bool → Bool → Bool → Bool → EngineCall
  | setR3EncryptionParameters : String → String → Bool → Bool → Bool → Bool → Bool → Bool → PrintPermission → EngineCall
  | setR4EncryptionParameters : String → String → Bool → Bool → Bool → Bool → Bool → Bool → PrintPermission → Bool → Bool → EngineCall
  | setR6EncryptionParameters : String → String → Bool → Bool → Bool → Bool → Bool → Bool → PrintPermission → Bool → EngineCall
  | qpdfWriteCall : EngineCall
deriving DecidableEq, Repr

/-- `QPdfWriter` (`writer.rs`): one staged `Option` per writer option. -/
structure QPdfWriter : Type where
  compress_streams : Option Bool
  preserve_unreferenced_objects : Option Bool
  normalize_content : Option Bool
  preserve_encryption : Option Bool
  linearize : Option Bool
  static_id : Option Bool
  deterministic_id : Option Bool
  min_pdf_version : Option String
  force_pdf_version : Option String
  stream_decode_level : Option StreamDecodeLevel
  object_stream_mode : Option ObjectStreamMode
  stream_data_mode : Option StreamDataMode
  encryption_params : Option EncryptionParams
deriving DecidableEq, Repr

/-- `QPdfWriter::new`: every option unset. -/
def QPdfWriter.new : QPdfWriter :=
  ⟨none, none, none, none, none, none, none, none, none, none, none, none, none⟩

/-- A staged infallible option: one engine call when set, none otherwise. -/
def optCall {α : Type} (o : Option α) (f : α → EngineCall) : List EngineCall :=
  match o with
  | some a => [f a]
  | none => []

/-- Sequence two traced fallible steps, aborting at the first error. -/
def seqT (a b : List EngineCall × Option QPdfError) :
    List EngineCall × Option QPdfError :=
  match a.2 with
  | some e => (a.1, some e)
  | none => (a.1 ++ b.1, b.2)

/-- A staged PDF-version option: converted with `CString::new(version)?`
before the engine call (`process_params`). -/
def verStage (o : Option String) (f : String → EngineCall) :
    List EngineCall × Option QPdfError :=
  match o with
  | none => ([], none)
  | some v =>
    match cstring_new v with
    | none => ([], some qpdfErrorOfNul)
    | some cv => ([f cv], none)

/-- `QPdfWriter::set_encryption_params` (`writer.rs`): both passwords are
converted with `CString::new(..)?` before the revision-specific engine call. -/
def QPdfWriter.set_encryption_params (params : EncryptionParams) :
    List EngineCall × Option QPdfError :=
  match params with
  | .R2 r2 =>
    match cstring_new r2.user_password, cstring_new r2.owner_password with
    | some u, some o =>
      ([.setR2EncryptionParameters u o r2.allow_print r2.allow_modify
          r2.allow_extract r2.allow_annotate], none)
    | _, _ => ([], some qpdfErrorOfNul)
  | .R3 r3 =>
    match cstring_new r3.user_password, cstring_new r3.owner_password with
    | some u, some o =>
      ([.setR3EncryptionParameters u o r3.allow_accessibility r3.allow_extract
          r3.allow_assemble r3.allow_annotate_and_form r3.allow_form_filling
          r3.allow_modify_other r3.allow_print], none)
    | _, _ => ([], some qpdfErrorOfNul)
  | .R4 r4 =>
    match cstring_new r4.user_password, cstring_new r4.owner_password with
    | some u, some o =>
      ([.setR4EncryptionParameters u o r4.allow_accessibility r4.allow_extract
          r4.allow_assemble r4.allow_annotate_and_form r4.allow_form_filling
          r4.allow_modify_other r4.allow_print r4.encrypt_metadata r4.use_aes], none)
    | _, _ => ([], some qpdfErrorOfNul)
  | .R6 r6 =>
    match cstring_new r6.user_password, cstring_new r6.owner_password with
    | some u, some o =>
      ([.setR6EncryptionParameters u o r6.allow_accessibility r6.allow_extract
          r6.allow_assemble r6.allow_annotate_and_form r6.allow_form_filling
          r6.allow_modify_other r6.allow_print r6.encrypt_metadata], none)
    | _, _ => ([], some qpdfErrorOfNul)

/-- The staged encryption option as a fallible step. -/
def encStage (o : Option EncryptionParams) : List EngineCall × Option QPdfError :=
  match o with
  | none => ([], none)
  | some p => QPdfWriter.set_encryption_params p

/-- The ten infallible staged options of `process_params`, in source order. -/
def QPdfWriter.infallibleCalls (w : QPdfWriter) : List EngineCall :=
  optCall w.compress_streams .setCompressStreams ++
  optCall w.preserve_unreferenced_objects .setPreserveUnreferencedObjects ++
  optCall w.normalize_content .setContentNormalization ++
  optCall w.preserve_encryption .setPreserveEncryption ++
  optCall w.linearize .setLinearization ++
  optCall w.static_id .setStaticId ++
  optCall w.deterministic_id .setDeterministicId ++
  optCall w.stream_decode_level .setDecodeLevel ++
  optCall w.object_stream_mode .setObjectStreamMode ++
  optCall w.stream_data_mode .setStreamDataMode

/-- `QPdfWriter::process_params` (`writer.rs`): apply every staged option in
source order; each unset option is skipped; the version and encryption
stages are fallible and the first error aborts the remainder. -/
def QPdfWriter.process_params (w : QPdfWriter) :
    List EngineCall × Option QPdfError :=
  seqT (w.infallibleCalls, none)
    (seqT (verStage w.min_pdf_version .setMinimumPdfVersion)
      (seqT (verStage w.force_pdf_version .forcePdfVersion)
        (encStage w.encryption_params)))

/-- `QPdfWriter::write` (`writer.rs`): convert the path, initialize the
file-targeted write context, apply the staged options, then serialize. -/
def QPdfWriter.write (w : QPdfWriter) (path : String) :
    List EngineCall × Option QPdfError :=
  match cstring_new path with
  | none => ([], some qpdfErrorOfNul)
  | some p =>
    seqT ([.initWriteFile p], none)
      (seqT w.process_params ([.qpdfWriteCall], none))

/-- `QPdfWriter::write_to_memory` (`writer.rs`): initialize the
memory-targeted write context, apply the staged options, then serialize. -/
def QPdfWriter.write_to_memory (w : QPdfWriter) :
    List EngineCall × Option QPdfError :=
  seqT ([.initWriteMemory], none)
    (seqT w.process_params ([.qpdfWriteCall], none))

/-- Which staged writer option an engine call applies (`none` for the
control calls: context initialization and serialization). -/
def EngineCall.field : EngineCall → Option Nat
  | .initWriteFile _ => none
  | .initWriteMemory => none
  | .setCompressStreams _ => some 0
  | .setPreserveUnreferencedObjects _ => some 1
  | .setContentNormalization _ => some 2
  | .setPreserveEncryption _ => some 3
  | .setLinearization _ => some 4
  | .setStaticId _ => some 5
  | .setDeterministicId _ => some 6
  | .setDecodeLevel _ => some 7
  | .setObjectStreamMode _ => some 8
  | .setStreamDataMode _ => some 9
  | .setMinimumPdfVersion _ => some 10
  | .forcePdfVersion _ => some 11
  | .setR2EncryptionParameters _ _ _ _ _ _ => some 12
  | .setR3EncryptionParameters _ _ _ _ _ _ _ _ _ => some 12
  | .setR4EncryptionParameters _ _ _ _ _ _ _ _ _ _ _ => some 12
  | .setR6EncryptionParameters _ _ _ _ _ _ _ _ _ _ => some 12
  | .qpdfWriteCall => none

/-- Whether the writer stages the option with the given field index
(mirrors the spec's list of staged options, for comparison with the
trace). -/
def QPdfWriter.staged (w : QPdfWriter) (f : Nat) : Bool :=
  match f with
  | 0 => w.compress_streams.isSome
  | 1 => w.preserve_unreferenced_objects.isSome
  | 2 => w.normalize_content.isSome
  | 3 => w.preserve_encryption.isSome
  | 4 => w.linearize.isSome
  | 5 => w.static_id.isSome
  | 6 => w.deterministic_id.isSome
  | 7 => w.stream_decode_level.isSome
  | 8 => w.object_stream_mode.isSome
  | 9 => w.stream_data_mode.isSome
  | 10 => w.min_pdf_version.isSome
  | 11 => w.force_pdf_version.isSome
  | 12 => w.encryption_params.isSome
  | _ => false

/-- Whether a handle currently refers to an array node. -/
def isArrayOh (s : DocState) (oh : Nat) : Bool :=
  match engValue s oh with
  | .array _ => true
  | _ => false

/-- Whether a handle currently refers to a dictionary node. -/
def isDictOh (s : DocState) (oh : Nat) : Bool :=
  match engValue s oh with
  | .dict _ => true
  | _ => false

/-- Whether the dictionary node behind a handle has an entry for the key
(regardless of the entry's value). -/
def dictHasEntry (s : DocState) (oh : Nat) (k : String) : Bool :=
  match engValue s oh with
  | .dict entries => (alookup k entries).isSome
  | _ => false

/-- Spec-side check (for comparison with the trace): every option-setting
call in the write trace corresponds to a staged (`Some`) option. -/
def QPdfWriter.traceRespectsStaging (w : QPdfWriter) : Bool :=
  (QPdfWriter.write_to_memory w).1.all fun c =>
    match EngineCall.field c with
    | some fno => QPdfWriter.staged w fno
    | none => true

/-- Spec-side check: every staged option has a corresponding call in the
write trace. -/
def QPdfWriter.allStagedApplied (w : QPdfWriter) : Bool :=
  (List.range 13).all fun fno =>
    !(QPdfWriter.staged w fno) ||
      (QPdfWriter.write_to_memory w).1.any fun c =>
        EngineCall.field c == some fno

/-- Whether the staged minimum-PDF-version string contains an embedded NUL
(the first fallible stage of `process_params`). -/
def QPdfWriter.minVersionHasNul (w : QPdfWriter) : Bool :=
  match w.min_pdf_version with
  | some v => containsNul v
  | none => false

/-- Spec-side check: the write aborted with the NUL conversion error and the
stages after the failing one (force-version, encryption) were never
applied. -/
def QPdfWriter.laterStagesSkipped (w : QPdfWriter) : Bool :=
  decide ((QPdfWriter.write_to_memory w).2 = some qpdfErrorOfNul) &&
    ((QPdfWriter.write_to_memory w).1.all fun c =>
      !(EngineCall.field c == some 11) && !(EngineCall.field c == some 12))

/-! ### Concrete fixtures for witnesses -/

/-- A document holding one freshly created integer object. -/
def wDoc : DocState := (Qpdf.new_integer (emptyDoc 0) 5).1

/-- The handle of that integer object. -/
def wObj : QpdfObject := (Qpdf.new_integer (emptyDoc 0) 5).2

/-- Document with three live integer objects, for witnesses. -/
def wD3 : DocState :=
  (Qpdf.new_integer (Qpdf.new_integer (Qpdf.new_integer (emptyDoc 0) 1).1 2).1 3).1

/-- The three objects of `wD3`. -/
def wA : QpdfObject := (Qpdf.new_integer (emptyDoc 0) 1).2

/-- Second object of `wD3`. -/
def wB : QpdfObject := (Qpdf.new_integer (Qpdf.new_integer (emptyDoc 0) 1).1 2).2

/-- Third object of `wD3`. -/
def wC : QpdfObject :=
  (Qpdf.new_integer (Qpdf.new_integer (Qpdf.new_integer (emptyDoc 0) 1).1 2).1 3).2

/-- A document holding a dictionary, a boolean and a null object. -/
def wSd : DocState :=
  (Qpdf.new_null (Qpdf.new_bool (Qpdf.new_dictionary (emptyDoc 0)).1 true).1).1

/-- The dictionary handle of `wSd`. -/
def wDict : QpdfObject := (Qpdf.new_dictionary (emptyDoc 0)).2

/-- The boolean handle of `wSd`. -/
def wV : QpdfObject := (Qpdf.new_bool (Qpdf.new_dictionary (emptyDoc 0)).1 true).2

/-- The null handle of `wSd`. -/
def wW : QpdfObject :=
  (Qpdf.new_null (Qpdf.new_bool (Qpdf.new_dictionary (emptyDoc 0)).1 true).1).2

/-- A writer with several staged options (and the rest unset), for the
writer witness. -/
def wWr : QPdfWriter :=
  { QPdfWriter.new with
    compress_streams := some true
    linearize := some false
    min_pdf_version := some "1.7"
    encryption_params := some (.R2 ⟨"u", "o", true, false, true, false⟩) }

/-! ### Association-list lemmas -/

@[simp]
theorem alookup_nil {κ α : Type} [DecidableEq κ] (k : κ) :
    alookup (α := α) k [] = none := rfl

@[simp]
theorem alookup_cons_self {κ α : Type} [DecidableEq κ] (k : κ) (v : α)
    (l : List (κ × α)) : alookup k ((k, v) :: l) = some v := by
  simp [alookup]

theorem alookup_cons_ne {κ α : Type} [DecidableEq κ] {k k1 : κ} (v : α)
    (l : List (κ × α)) (h : k ≠ k1) :
    alookup k ((k1, v) :: l) = alookup k l := by
  simp [alookup, h]

theorem alookup_isSome_mem {κ α : Type} [DecidableEq κ] {k : κ}
    {l : List (κ × α)} (h : (alookup k l).isSome = true) :
    ∃ v, (k, v) ∈ l := by
  induction l with
  | nil => simp [alookup] at h
  | cons p rest ih =>
    by_cases hk : k = p.1
    · exact ⟨p.2, by simp [hk]⟩
    · rw [show p = (p.1, p.2) from rfl, alookup_cons_ne _ _ hk] at h
      obtain ⟨v, hv⟩ := ih h
      exact ⟨v, List.mem_cons_of_mem _ hv⟩

theorem alookup_aerase_ne {κ α : Type} [DecidableEq κ] {k k1 : κ}
    (l : List (κ × α)) (h : k ≠ k1) :
    alookup k (aerase k1 l) = alookup k l := by
  induction l with
  | nil => rfl
  | cons p rest ih =>
    obtain ⟨kp, vp⟩ := p
    by_cases hp : kp = k1
    · subst hp
      rw [alookup_cons_ne _ _ h, ← ih]
      simp [aerase, List.filter_cons]
    · by_cases hk : k = kp
      · subst hk
        simp [aerase, List.filter_cons, hp]
      · rw [alookup_cons_ne _ _ hk, ← ih]
        simp only [aerase, List.filter_cons]
        rw [if_pos (by simp [hp]), alookup_cons_ne _ _ hk]

theorem alookup_aerase_self {κ α : Type} [DecidableEq κ] (k : κ)
    (l : List (κ × α)) : alookup k (aerase k l) = none := by
  induction l with
  | nil => rfl
  | cons p rest ih =>
    obtain ⟨kp, vp⟩ := p
    by_cases hp : kp = k
    · subst hp
      rw [← ih]
      simp [aerase, List.filter_cons]
    · rw [← ih]
      simp only [aerase, List.filter_cons, decide_eq_false hp, Bool.not_false,
        if_true]
      rw [alookup_cons_ne _ _ (fun hc => hp hc.symm)]

theorem alookup_aupd_self {κ α : Type} [DecidableEq κ] (k : κ) (v : α)
    (l : List (κ × α)) :
    alookup k (aupd k v l) = (alookup k l).map fun _ => v := by
  induction l with
  | nil => rfl
  | cons p rest ih =>
    obtain ⟨kp, vp⟩ := p
    by_cases hk : k = kp
    · subst hk
      simp [aupd]
    · simp only [aupd, if_neg hk]
      rw [alookup_cons_ne _ _ hk, alookup_cons_ne _ _ hk]
      exact ih

theorem alookup_aupd_ne {κ α : Type} [DecidableEq κ] {k k1 : κ} (v : α)
    (l : List (κ × α)) (h : k1 ≠ k) :
    alookup k1 (aupd k v l) = alookup k1 l := by
  induction l with
  | nil => rfl
  | cons p rest ih =>
    obtain ⟨kp, vp⟩ := p
    by_cases hk : k = kp
    · subst hk
      rw [show aupd k v ((k, vp) :: rest) = (k, v) :: rest from by simp [aupd]]
      rw [alookup_cons_ne _ _ h, alookup_cons_ne _ _ h]
    · simp only [aupd, if_neg hk]
      by_cases hk1 : k1 = kp
      · subst hk1
        simp
      · rw [alookup_cons_ne _ _ hk1, alookup_cons_ne _ _ hk1]
        exact ih

theorem alookup_dinsert_self {κ α : Type} [DecidableEq κ] (k : κ) (v : α)
    (l : List (κ × α)) : alookup k (dinsert k v l) = some v := by
  induction l with
  | nil => simp [dinsert]
  | cons p rest ih =>
    obtain ⟨kp, vp⟩ := p
    by_cases hk : k = kp
    · subst hk
      simp [dinsert]
    · simp only [dinsert, if_neg hk]
      rw [alookup_cons_ne _ _ hk]
      exact ih

theorem alookup_dinsert_ne {κ α : Type} [DecidableEq κ] {k k1 : κ} (v : α)
    (l : List (κ × α)) (h : k1 ≠ k) :
    alookup k1 (dinsert k v l) = alookup k1 l := by
  induction l with
  | nil => simp [dinsert, alookup, fun hc => h hc]
  | cons p rest ih =>
    obtain ⟨kp, vp⟩ := p
    by_cases hk : k = kp
    · subst hk
      rw [show dinsert k v ((k, vp) :: rest) = (k, v) :: rest from by simp [dinsert]]
      rw [alookup_cons_ne _ _ h, alookup_cons_ne _ _ h]
    · simp only [dinsert, if_neg hk]
      by_cases hk1 : k1 = kp
      · subst hk1
        simp
      · rw [alookup_cons_ne _ _ hk1, alookup_cons_ne _ _ hk1]
        exact ih

theorem ohLive_lt_nextOh {s : DocState} {oh : Nat}
    (h1 : ohLive s oh = true) (h2 : handlesBounded s = true) :
    oh < s.nextOh := by
  obtain ⟨n, hn⟩ := alookup_isSome_mem h1
  have := List.all_eq_true.mp h2 _ hn
  simpa using this

/-! ### Claim C1 -/

/-- C1: contrary to the claim, `Qpdf::copy_from_foreign` registers nothing in
the target document's foreign-document set: for every pair of documents and
every foreign object the set is left unchanged by the call (the engine copy
is minted with the target as owner and no other step is performed), and at
the concrete failing input — target document A (id 0), an integer object
owned by document B (id 1) — A's foreign-document set stays empty instead of
containing B. -/
theorem copy_from_foreign_no_registration :
    (∀ (a src : DocState) (foreign : QpdfObject),
        (Qpdf.copy_from_foreign a src foreign).1.foreignDocs = a.foreignDocs ∧
        (Qpdf.copy_from_foreign a src foreign).2.owner = a.docid) ∧
    ((Qpdf.copy_from_foreign (emptyDoc 0) (Qpdf.new_integer (emptyDoc 1) 7).1
        (Qpdf.new_integer (emptyDoc 1) 7).2).1.foreignDocs = [] ∧
      ¬ 1 ∈ (Qpdf.copy_from_foreign (emptyDoc 0)
        (Qpdf.new_integer (emptyDoc 1) 7).1
        (Qpdf.new_integer (emptyDoc 1) 7).2).1.foreignDocs) :=
  ⟨fun _ _ _ => ⟨rfl, rfl⟩, by decide, by decide⟩

/-! ### Claim C2 -/

/-- C2 counterexample: the first object of document 0 and the first object of
document 1 receive the same engine handle value, so they compare equal under
the library's `PartialEq` although their owning documents differ — refuting
"x == y iff the node references are equal and they belong to the same
Document". -/
theorem qpdfobject_eq_ignores_owner_counterexample :
    QpdfObject.eq (Qpdf.new_integer (emptyDoc 0) 1).2
        (Qpdf.new_integer (emptyDoc 1) 2).2 = true ∧
    (Qpdf.new_integer (emptyDoc 0) 1).2.owner ≠
        (Qpdf.new_integer (emptyDoc 1) 2).2.owner :=
  ⟨by decide, by decide⟩

/-- C2 (amended): `x == y` holds iff the underlying node references (the
`inner` handle values) are equal; the owning document is not consulted.
Equality is never structural: constructing the same integer value twice
yields objects with distinct fresh handles, which compare unequal. -/
theorem qpdfobject_eq_iff_inner :
    (∀ x y : QpdfObject, QpdfObject.eq x y = true ↔ x.inner = y.inner) ∧
    (∀ (s : DocState) (v : Int),
      QpdfObject.eq (Qpdf.new_integer s v).2
        (Qpdf.new_integer (Qpdf.new_integer s v).1 v).2 = false) := by
  constructor
  · intro x y
    simp [QpdfObject.eq]
  · intro s v
    simp [Qpdf.new_integer, engNewObject, engNewNode, engAllocHandle,
      QpdfObject.eq]

/-! ### Claim C7 -/

/-- C7: promoting a direct object yields an indirect object — the result of
`into_indirect` satisfies `is_indirect` and carries a nonzero object id —
and promotion is not idempotent by identity: promoting the result again
allocates a fresh id, so the twice-promoted object's id differs from the
once-promoted object's id. -/
theorem into_indirect_fresh_ids (s : DocState) (x : QpdfObject)
    (hid : 1 ≤ s.nextObjId)
    (hdirect : QpdfObject.is_indirect s x = false) :
    QpdfObject.is_indirect (QpdfObject.into_indirect s x).1
      (QpdfObject.into_indirect s x).2 = true ∧
    QpdfObject.get_id (QpdfObject.into_indirect s x).1
      (QpdfObject.into_indirect s x).2 ≠ 0 ∧
    QpdfObject.get_id
        (QpdfObject.into_indirect (QpdfObject.into_indirect s x).1
          (QpdfObject.into_indirect s x).2).1
        (QpdfObject.into_indirect (QpdfObject.into_indirect s x).1
          (QpdfObject.into_indirect s x).2).2 ≠
      QpdfObject.get_id
        (QpdfObject.into_indirect (QpdfObject.into_indirect s x).1
          (QpdfObject.into_indirect s x).2).1
        (QpdfObject.into_indirect s x).2 := by
  have h1 : QpdfObject.get_id (QpdfObject.into_indirect s x).1
      (QpdfObject.into_indirect s x).2 = s.nextObjId := by
    simp [QpdfObject.into_indirect, qpdf_make_indirect_object, engAllocHandle,
      QpdfObject.get_id, qpdf_oh_get_object_id, engNode, engNodeData, engValue,
      alookup]
  have h2 : QpdfObject.get_id
      (QpdfObject.into_indirect (QpdfObject.into_indirect s x).1
        (QpdfObject.into_indirect s x).2).1
      (QpdfObject.into_indirect (QpdfObject.into_indirect s x).1
        (QpdfObject.into_indirect s x).2).2 = s.nextObjId + 1 := by
    simp [QpdfObject.into_indirect, qpdf_make_indirect_object, engAllocHandle,
      QpdfObject.get_id, qpdf_oh_get_object_id, engNode, engNodeData, engValue,
      alookup]
  have h3 : QpdfObject.get_id
      (QpdfObject.into_indirect (QpdfObject.into_indirect s x).1
        (QpdfObject.into_indirect s x).2).1
      (QpdfObject.into_indirect s x).2 = s.nextObjId := by
    simp [QpdfObject.into_indirect, qpdf_make_indirect_object, engAllocHandle,
      QpdfObject.get_id, qpdf_oh_get_object_id, engNode, engNodeData, engValue,
      alookup]
  refine ⟨?_, ?_, ?_⟩
  · simp [QpdfObject.into_indirect, qpdf_make_indirect_object, engAllocHandle,
      QpdfObject.is_indirect, qpdf_oh_is_indirect, engNode, engNodeData,
      engValue]
    omega
  · omega
  · omega

/-- Witness for C7 at a concrete input: a freshly created direct integer
object of an empty document. -/
theorem into_indirect_fresh_ids_witness :
    (1 ≤ wDoc.nextObjId) ∧ (QpdfObject.is_indirect wDoc wObj = false) ∧
    (QpdfObject.is_indirect (QpdfObject.into_indirect wDoc wObj).1
      (QpdfObject.into_indirect wDoc wObj).2 = true ∧
    QpdfObject.get_id (QpdfObject.into_indirect wDoc wObj).1
      (QpdfObject.into_indirect wDoc wObj).2 ≠ 0 ∧
    QpdfObject.get_id
        (QpdfObject.into_indirect (QpdfObject.into_indirect wDoc wObj).1
          (QpdfObject.into_indirect wDoc wObj).2).1
        (QpdfObject.into_indirect (QpdfObject.into_indirect wDoc wObj).1
          (QpdfObject.into_indirect wDoc wObj).2).2 ≠
      QpdfObject.get_id
        (QpdfObject.into_indirect (QpdfObject.into_indirect wDoc wObj).1
          (QpdfObject.into_indirect wDoc wObj).2).1
        (QpdfObject.into_indirect wDoc wObj).2) :=
  ⟨by decide, by decide, into_indirect_fresh_ids wDoc wObj (by decide) (by decide)⟩

/-! ### Claim C10 -/

/-- C10: `Clone` obtains a fresh engine-side handle (`qpdf_oh_new_object`) to
the same underlying node rather than reusing the handle: the clone compares
unequal to the original under the library's handle-based equality although
both handles refer to the same node, and each handle is released
independently — dropping either one leaves the other live on the same node. -/
theorem clone_fresh_handle_same_node (s : DocState) (x : QpdfObject)
    (hlive : ohLive s x.inner = true) (hwf : handlesBounded s = true) :
    QpdfObject.eq (QpdfObject.clone s x).2 x = false ∧
    (QpdfObject.clone s x).2.owner = x.owner ∧
    engNode (QpdfObject.clone s x).1 (QpdfObject.clone s x).2.inner =
      engNode s x.inner ∧
    (ohLive (QpdfObject.drop (QpdfObject.clone s x).1 (QpdfObject.clone s x).2)
        x.inner = true ∧
      engNode (QpdfObject.drop (QpdfObject.clone s x).1 (QpdfObject.clone s x).2)
        x.inner = engNode s x.inner) ∧
    (ohLive (QpdfObject.drop (QpdfObject.clone s x).1 x)
        (QpdfObject.clone s x).2.inner = true ∧
      engNode (QpdfObject.drop (QpdfObject.clone s x).1 x)
        (QpdfObject.clone s x).2.inner = engNode s x.inner) := by
  have hx : x.inner < s.nextOh := ohLive_lt_nextOh hlive hwf
  refine ⟨?_, rfl, ?_, ⟨?_, ?_⟩, ⟨?_, ?_⟩⟩
  · simp [QpdfObject.clone, qpdf_oh_new_object, engAllocHandle, QpdfObject.eq]
    omega
  · simp [QpdfObject.clone, qpdf_oh_new_object, engAllocHandle, engNode, alookup]
  · simp [QpdfObject.drop, QpdfObject.clone, qpdf_oh_new_object, engAllocHandle,
      qpdf_oh_release, ohLive]
    rw [alookup_aerase_ne _ (by omega), alookup_cons_ne _ _ (by omega)]
    simpa [ohLive] using hlive
  · simp [QpdfObject.drop, QpdfObject.clone, qpdf_oh_new_object, engAllocHandle,
      qpdf_oh_release, engNode]
    rw [alookup_aerase_ne _ (by omega), alookup_cons_ne _ _ (by omega)]
  · simp [QpdfObject.drop, QpdfObject.clone, qpdf_oh_new_object, engAllocHandle,
      qpdf_oh_release, ohLive]
    rw [alookup_aerase_ne _ (by omega)]
    simp [alookup]
  · simp [QpdfObject.drop, QpdfObject.clone, qpdf_oh_new_object, engAllocHandle,
      qpdf_oh_release, engNode]
    rw [alookup_aerase_ne _ (by omega)]
    simp [alookup]

/-- Witness for C10 at a concrete input: the single live object of a
one-object document. -/
theorem clone_fresh_handle_same_node_witness :
    (ohLive wDoc wObj.inner = true) ∧ (handlesBounded wDoc = true) ∧
    (QpdfObject.eq (QpdfObject.clone wDoc wObj).2 wObj = false ∧
    (QpdfObject.clone wDoc wObj).2.owner = wObj.owner ∧
    engNode (QpdfObject.clone wDoc wObj).1 (QpdfObject.clone wDoc wObj).2.inner =
      engNode wDoc wObj.inner ∧
    (ohLive (QpdfObject.drop (QpdfObject.clone wDoc wObj).1
        (QpdfObject.clone wDoc wObj).2) wObj.inner = true ∧
      engNode (QpdfObject.drop (QpdfObject.clone wDoc wObj).1
        (QpdfObject.clone wDoc wObj).2) wObj.inner = engNode wDoc wObj.inner) ∧
    (ohLive (QpdfObject.drop (QpdfObject.clone wDoc wObj).1 wObj)
        (QpdfObject.clone wDoc wObj).2.inner = true ∧
      engNode (QpdfObject.drop (QpdfObject.clone wDoc wObj).1 wObj)
        (QpdfObject.clone wDoc wObj).2.inner = engNode wDoc wObj.inner)) :=
  ⟨by decide, by decide,
    clone_fresh_handle_same_node wDoc wObj (by decide) (by decide)⟩

/-! ### Engine-state helper lemmas -/

theorem engNode_setNodeValue (s : DocState) (n : Nat) (v : PdfValue) (oh : Nat) :
    engNode (engSetNodeValue s n v) oh = engNode s oh := rfl

theorem engNodeData_setNodeValue_self (s : DocState) (n : Nat) (v : PdfValue)
    (h : (alookup n s.nodes).isSome = true) :
    engNodeData (engSetNodeValue s n v) n = { engNodeData s n with value := v } := by
  obtain ⟨nd, hnd⟩ := Option.isSome_iff_exists.mp h
  rw [engNodeData, engSetNodeValue]
  show (alookup n (aupd n _ s.nodes)).getD default = _
  rw [alookup_aupd_self, hnd]
  rfl

theorem engNodeData_setNodeValue_ne (s : DocState) (n : Nat) (v : PdfValue)
    (m : Nat) (h : m ≠ n) :
    engNodeData (engSetNodeValue s n v) m = engNodeData s m := by
  rw [engNodeData, engSetNodeValue]
  show (alookup m (aupd n _ s.nodes)).getD default = _
  rw [alookup_aupd_ne _ _ h]
  rfl

theorem engValue_setNodeValue_self (s : DocState) (oh : Nat) (v : PdfValue)
    (h : (alookup (engNode s oh) s.nodes).isSome = true) :
    engValue (engSetNodeValue s (engNode s oh) v) oh = v := by
  rw [engValue, engNode_setNodeValue, engNodeData_setNodeValue_self _ _ _ h]

theorem engValue_setNodeValue_eq (s : DocState) (oh n : Nat) (v : PdfValue)
    (hn : engNode s oh = n)
    (h : (alookup n s.nodes).isSome = true) :
    engValue (engSetNodeValue s n v) oh = v := by
  subst hn
  exact engValue_setNodeValue_self s oh v h

theorem nodes_isSome_of_engValue_ne (s : DocState) (oh : Nat)
    (h : engValue s oh ≠ PdfValue.uninitialized) :
    (alookup (engNode s oh) s.nodes).isSome = true := by
  cases hn : alookup (engNode s oh) s.nodes with
  | none =>
    exfalso
    apply h
    rw [engValue, engNodeData, hn]
    rfl
  | some nd => rfl

/-! ### Claim C4 -/

/-- C4 counterexample: on a fresh empty array (length 0), `insert` at index
0 — which satisfies the claim's "i >= len(a)" — appends the item instead of
leaving the array unchanged: the length becomes 1. -/
theorem array_insert_at_len_appends :
    QpdfArray.len (Qpdf.new_bool (Qpdf.new_array (emptyDoc 0)).1 true).1
      (Qpdf.new_array (emptyDoc 0)).2 = 0 ∧
    QpdfArray.len
      (QpdfArray.insert (Qpdf.new_bool (Qpdf.new_array (emptyDoc 0)).1 true).1
        (Qpdf.new_array (emptyDoc 0)).2 0
        (Qpdf.new_bool (Qpdf.new_array (emptyDoc 0)).1 true).2)
      (Qpdf.new_array (emptyDoc 0)).2 = 1 := ⟨by decide, by decide⟩

/-- C4 (amended): for every array handle, `get` returns `None` exactly at
indices `>= len` and `Some` below `len`; `set` and `remove` at any index
`>= len` and `insert` at any index `> len` leave the state unchanged (the
engine rejects them without out-of-bounds access); `insert` at index `= len`
appends, growing the array by one. -/
theorem array_index_ops_bounds (s : DocState) (a item : QpdfObject) (i k : Nat)
    (ha : isArrayOh s a.inner = true) :
    QpdfArray.get s a (QpdfArray.len s a + k) = (s, none) ∧
    (QpdfArray.get s a i).2.isSome = decide (i < QpdfArray.len s a) ∧
    QpdfArray.set s a (QpdfArray.len s a + k) item = s ∧
    QpdfArray.remove s a (QpdfArray.len s a + k) = s ∧
    QpdfArray.insert s a (QpdfArray.len s a + k + 1) item = s ∧
    QpdfArray.len (QpdfArray.insert s a (QpdfArray.len s a) item) a =
      QpdfArray.len s a + 1 := by
  refine ⟨?_, ?_, ?_, ?_, ?_, ?_⟩
  · simp [QpdfArray.get]
  · by_cases h : i < QpdfArray.len s a
    · simp [QpdfArray.get, h]
    · simp [QpdfArray.get, h]
  · rw [QpdfArray.set, qpdf_oh_set_array_item]
    rcases hv : engValue s a.inner with _|_|_|_|_|_|_|_|items|_|_|_|_ <;> try rfl
    have hlen : QpdfArray.len s a = items.length := by
      rw [QpdfArray.len, qpdf_oh_get_array_n_items, hv]
    simp [hlen, show ¬(items.length + k < items.length) from by omega]
  · rw [QpdfArray.remove, qpdf_oh_erase_item]
    rcases hv : engValue s a.inner with _|_|_|_|_|_|_|_|items|_|_|_|_ <;> try rfl
    have hlen : QpdfArray.len s a = items.length := by
      rw [QpdfArray.len, qpdf_oh_get_array_n_items, hv]
    simp [hlen, show ¬(items.length + k < items.length) from by omega]
  · rw [QpdfArray.insert, qpdf_oh_insert_item]
    rcases hv : engValue s a.inner with _|_|_|_|_|_|_|_|items|_|_|_|_ <;> try rfl
    have hlen : QpdfArray.len s a = items.length := by
      rw [QpdfArray.len, qpdf_oh_get_array_n_items, hv]
    simp [hlen, show ¬(items.length + k + 1 ≤ items.length) from by omega]
  · rw [isArrayOh] at ha
    rcases hv : engValue s a.inner with _|_|_|_|_|_|_|_|items|_|_|_|_ <;>
      rw [hv] at ha <;> simp at ha
    have hlen : QpdfArray.len s a = items.length := by
      rw [QpdfArray.len, qpdf_oh_get_array_n_items, hv]
    have hsome : (alookup (engNode s a.inner) s.nodes).isSome = true :=
      nodes_isSome_of_engValue_ne s a.inner (by rw [hv]; intro hc; cases hc)
    rw [hlen, QpdfArray.insert, qpdf_oh_insert_item, hv]
    simp [engValue_setNodeValue_self _ _ _ hsome, QpdfArray.len,
      qpdf_oh_get_array_n_items]

/-- Witness for C4 at a concrete input: a fresh empty array, index 2,
offset 1, and a boolean item. -/
theorem array_index_ops_bounds_witness :
    (isArrayOh (Qpdf.new_bool (Qpdf.new_array (emptyDoc 0)).1 true).1
      (Qpdf.new_array (emptyDoc 0)).2.inner = true) ∧
    (QpdfArray.get (Qpdf.new_bool (Qpdf.new_array (emptyDoc 0)).1 true).1
        (Qpdf.new_array (emptyDoc 0)).2
        (QpdfArray.len (Qpdf.new_bool (Qpdf.new_array (emptyDoc 0)).1 true).1
          (Qpdf.new_array (emptyDoc 0)).2 + 1) =
      ((Qpdf.new_bool (Qpdf.new_array (emptyDoc 0)).1 true).1, none) ∧
    (QpdfArray.get (Qpdf.new_bool (Qpdf.new_array (emptyDoc 0)).1 true).1
        (Qpdf.new_array (emptyDoc 0)).2 2).2.isSome =
      decide (2 < QpdfArray.len
        (Qpdf.new_bool (Qpdf.new_array (emptyDoc 0)).1 true).1
        (Qpdf.new_array (emptyDoc 0)).2) ∧
    QpdfArray.set (Qpdf.new_bool (Qpdf.new_array (emptyDoc 0)).1 true).1
        (Qpdf.new_array (emptyDoc 0)).2
        (QpdfArray.len (Qpdf.new_bool (Qpdf.new_array (emptyDoc 0)).1 true).1
          (Qpdf.new_array (emptyDoc 0)).2 + 1)
        (Qpdf.new_bool (Qpdf.new_array (emptyDoc 0)).1 true).2 =
      (Qpdf.new_bool (Qpdf.new_array (emptyDoc 0)).1 true).1 ∧
    QpdfArray.remove (Qpdf.new_bool (Qpdf.new_array (emptyDoc 0)).1 true).1
        (Qpdf.new_array (emptyDoc 0)).2
        (QpdfArray.len (Qpdf.new_bool (Qpdf.new_array (emptyDoc 0)).1 true).1
          (Qpdf.new_array (emptyDoc 0)).2 + 1) =
      (Qpdf.new_bool (Qpdf.new_array (emptyDoc 0)).1 true).1 ∧
    QpdfArray.insert (Qpdf.new_bool (Qpdf.new_array (emptyDoc 0)).1 true).1
        (Qpdf.new_array (emptyDoc 0)).2
        (QpdfArray.len (Qpdf.new_bool (Qpdf.new_array (emptyDoc 0)).1 true).1
          (Qpdf.new_array (emptyDoc 0)).2 + 1 + 1)
        (Qpdf.new_bool (Qpdf.new_array (emptyDoc 0)).1 true).2 =
      (Qpdf.new_bool (Qpdf.new_array (emptyDoc 0)).1 true).1 ∧
    QpdfArray.len
        (QpdfArray.insert (Qpdf.new_bool (Qpdf.new_array (emptyDoc 0)).1 true).1
          (Qpdf.new_array (emptyDoc 0)).2
          (QpdfArray.len (Qpdf.new_bool (Qpdf.new_array (emptyDoc 0)).1 true).1
            (Qpdf.new_array (emptyDoc 0)).2)
          (Qpdf.new_bool (Qpdf.new_array (emptyDoc 0)).1 true).2)
        (Qpdf.new_array (emptyDoc 0)).2 =
      QpdfArray.len (Qpdf.new_bool (Qpdf.new_array (emptyDoc 0)).1 true).1
        (Qpdf.new_array (emptyDoc 0)).2 + 1) :=
  ⟨by decide,
    array_index_ops_bounds (Qpdf.new_bool (Qpdf.new_array (emptyDoc 0)).1 true).1
      (Qpdf.new_array (emptyDoc 0)).2
      (Qpdf.new_bool (Qpdf.new_array (emptyDoc 0)).1 true).2 2 1 (by decide)⟩

/-! ### Claim C9 -/

/-- One iterator step that yields an element, unfolded. -/
theorem collect_succ_some (arr : QpdfObject) (fuel : Nat) (s : DocState)
    (ix : Nat) (s1 : DocState) (o : QpdfObject)
    (h : QpdfArray.get s arr ix = (s1, some o)) :
    QpdfArrayIterator.collect arr (fuel + 1) s ix =
      ((QpdfArrayIterator.collect arr fuel s1 (ix + 1)).1,
       o :: (QpdfArrayIterator.collect arr fuel s1 (ix + 1)).2) := by
  simp [QpdfArrayIterator.collect, QpdfArrayIterator.next, h]

/-- The iterator stops at the first `None` from `get`. -/
theorem collect_succ_none (arr : QpdfObject) (fuel : Nat) (s : DocState)
    (ix : Nat) (s1 : DocState)
    (h : QpdfArray.get s arr ix = (s1, none)) :
    QpdfArrayIterator.collect arr (fuel + 1) s ix = (s, []) := by
  simp [QpdfArrayIterator.collect, QpdfArrayIterator.next, h]

/-- Running the iterator over a three-element array yields exactly three
fresh handles aliasing the element nodes, in order, and stops; the array
handle stays live with its node untouched, so the run can be repeated. -/
theorem collect3 (T : DocState) (d arrOh na nb nc nn i g : Nat) (fuel : Nat)
    (hh : alookup arrOh T.handles = some nn)
    (hn : alookup nn T.nodes = some ⟨PdfValue.array [na, nb, nc], i, g⟩)
    (hlt : arrOh < T.nextOh) :
    QpdfArrayIterator.collect ⟨d, arrOh⟩ (fuel + 4) T 0 =
      (({ T with
          handles := (T.nextOh + 1 + 1, nc) :: (T.nextOh + 1, nb) ::
            (T.nextOh, na) :: T.handles,
          nextOh := T.nextOh + 1 + 1 + 1 } : DocState),
       [⟨d, T.nextOh⟩, ⟨d, T.nextOh + 1⟩, ⟨d, T.nextOh + 1 + 1⟩]) ∧
    List.map (fun o => engNode ({ T with
          handles := (T.nextOh + 1 + 1, nc) :: (T.nextOh + 1, nb) ::
            (T.nextOh, na) :: T.handles,
          nextOh := T.nextOh + 1 + 1 + 1 } : DocState) o.inner)
      ([⟨d, T.nextOh⟩, ⟨d, T.nextOh + 1⟩, ⟨d, T.nextOh + 1 + 1⟩] :
        List QpdfObject) = [na, nb, nc] ∧
    List.map (fun o => o.owner)
      ([⟨d, T.nextOh⟩, ⟨d, T.nextOh + 1⟩, ⟨d, T.nextOh + 1 + 1⟩] :
        List QpdfObject) = [d, d, d] ∧
    QpdfArray.get ({ T with
          handles := (T.nextOh + 1 + 1, nc) :: (T.nextOh + 1, nb) ::
            (T.nextOh, na) :: T.handles,
          nextOh := T.nextOh + 1 + 1 + 1 } : DocState) ⟨d, arrOh⟩ 3 = (({ T with
          handles := (T.nextOh + 1 + 1, nc) :: (T.nextOh + 1, nb) ::
            (T.nextOh, na) :: T.handles,
          nextOh := T.nextOh + 1 + 1 + 1 } : DocState), none) ∧
    alookup arrOh (({ T with
          handles := (T.nextOh + 1 + 1, nc) :: (T.nextOh + 1, nb) ::
            (T.nextOh, na) :: T.handles,
          nextOh := T.nextOh + 1 + 1 + 1 } : DocState)).handles = some nn ∧
    arrOh < (({ T with
          handles := (T.nextOh + 1 + 1, nc) :: (T.nextOh + 1, nb) ::
            (T.nextOh, na) :: T.handles,
          nextOh := T.nextOh + 1 + 1 + 1 } : DocState)).nextOh := by
  have h0 : arrOh ≠ T.nextOh := by omega
  have h1 : arrOh ≠ T.nextOh + 1 := by omega
  have h2 : arrOh ≠ T.nextOh + 1 + 1 := by omega
  have hget0 : QpdfArray.get T ⟨d, arrOh⟩ 0 =
      ({ T with handles := (T.nextOh, na) :: T.handles, nextOh := T.nextOh + 1 },
       some ⟨d, T.nextOh⟩) := by
    simp [QpdfArray.get, QpdfArray.len, qpdf_oh_get_array_n_items,
      qpdf_oh_get_array_item, engAllocHandle, engValue, engNode, engNodeData,
      hh, hn]
  have hget1 : QpdfArray.get
      ({ T with handles := (T.nextOh, na) :: T.handles, nextOh := T.nextOh + 1 })
      ⟨d, arrOh⟩ 1 =
      ({ T with
          handles := (T.nextOh + 1, nb) :: (T.nextOh, na) :: T.handles,
          nextOh := T.nextOh + 1 + 1 },
       some ⟨d, T.nextOh + 1⟩) := by
    simp [QpdfArray.get, QpdfArray.len, qpdf_oh_get_array_n_items,
      qpdf_oh_get_array_item, engAllocHandle, engValue, engNode, engNodeData,
      alookup, hh, hn, h0]
  have hget2 : QpdfArray.get
      ({ T with
          handles := (T.nextOh + 1, nb) :: (T.nextOh, na) :: T.handles,
          nextOh := T.nextOh + 1 + 1 })
      ⟨d, arrOh⟩ 2 =
      (({ T with
          handles := (T.nextOh + 1 + 1, nc) :: (T.nextOh + 1, nb) ::
            (T.nextOh, na) :: T.handles,
          nextOh := T.nextOh + 1 + 1 + 1 } : DocState),
       some ⟨d, T.nextOh + 1 + 1⟩) := by
    simp [QpdfArray.get, QpdfArray.len, qpdf_oh_get_array_n_items,
      qpdf_oh_get_array_item, engAllocHandle, engValue, engNode, engNodeData,
      alookup, hh, hn, h0, h1]
  have hget3 : QpdfArray.get ({ T with
          handles := (T.nextOh + 1 + 1, nc) :: (T.nextOh + 1, nb) ::
            (T.nextOh, na) :: T.handles,
          nextOh := T.nextOh + 1 + 1 + 1 } : DocState) ⟨d, arrOh⟩ 3 = (({ T with
          handles := (T.nextOh + 1 + 1, nc) :: (T.nextOh + 1, nb) ::
            (T.nextOh, na) :: T.handles,
          nextOh := T.nextOh + 1 + 1 + 1 } : DocState), none) := by
    simp [QpdfArray.get, QpdfArray.len, qpdf_oh_get_array_n_items,
      qpdf_oh_get_array_item, engAllocHandle, engValue, engNode, engNodeData,
      alookup, hh, hn, h0, h1, h2]
  have hne1 : T.nextOh ≠ T.nextOh + 1 + 1 := by omega
  have hne2 : T.nextOh ≠ T.nextOh + 1 + 1 + 1 := by omega
  have hne3 : T.nextOh + 1 ≠ T.nextOh + 1 + 1 + 1 := by omega
  refine ⟨?_, ?_, rfl, hget3, ?_, ?_⟩
  · rw [show fuel + 4 = (fuel + 3) + 1 from rfl,
      collect_succ_some _ _ _ _ _ _ hget0]
    norm_num
    rw [show fuel + 3 = (fuel + 2) + 1 from rfl,
      collect_succ_some _ _ _ _ _ _ hget1]
    norm_num
    rw [show fuel + 2 = (fuel + 1) + 1 from rfl,
      collect_succ_some _ _ _ _ _ _ hget2]
    norm_num
    rw [collect_succ_none _ fuel _ _ _ hget3]
    exact ⟨rfl, rfl⟩
  · simp [engNode, alookup, hne1, hne2, hne3]
  · simp [alookup, h0, h1, h2, hh]
  · show arrOh < T.nextOh + 1 + 1 + 1
    omega

/-- C9: after pushing three existing objects a, b, c onto a fresh array the
length is 3; the iterator built from repeated `get` starting at index 0
yields exactly the pushed elements in insertion order (fresh handles whose
nodes are a's, b's and c's nodes, owned by the same document), then
terminates (`get` at index 3 is `None`, for any spare fuel); and it is
restartable: a second run from index 0 yields handles to the same nodes in
the same order. -/
theorem array_push_iteration (s : DocState) (a b c : QpdfObject) (fuel : Nat)
    (hwf : handlesBounded s = true)
    (hla : ohLive s a.inner = true) (hlb : ohLive s b.inner = true)
    (hlc : ohLive s c.inner = true) :
    QpdfArray.len
      (QpdfArray.push
      (QpdfArray.push
        (QpdfArray.push (Qpdf.new_array s).1 (Qpdf.new_array s).2 a)
        (Qpdf.new_array s).2 b)
      (Qpdf.new_array s).2 c) (Qpdf.new_array s).2 = 3 ∧
    List.map (fun o => engNode (QpdfArrayIterator.collect (Qpdf.new_array s).2 (fuel + 4)
      (QpdfArray.push
      (QpdfArray.push
        (QpdfArray.push (Qpdf.new_array s).1 (Qpdf.new_array s).2 a)
        (Qpdf.new_array s).2 b)
      (Qpdf.new_array s).2 c) 0).1 o.inner) (QpdfArrayIterator.collect (Qpdf.new_array s).2 (fuel + 4)
      (QpdfArray.push
      (QpdfArray.push
        (QpdfArray.push (Qpdf.new_array s).1 (Qpdf.new_array s).2 a)
        (Qpdf.new_array s).2 b)
      (Qpdf.new_array s).2 c) 0).2 =
      [engNode s a.inner, engNode s b.inner, engNode s c.inner] ∧
    List.map (fun o => o.owner) (QpdfArrayIterator.collect (Qpdf.new_array s).2 (fuel + 4)
      (QpdfArray.push
      (QpdfArray.push
        (QpdfArray.push (Qpdf.new_array s).1 (Qpdf.new_array s).2 a)
        (Qpdf.new_array s).2 b)
      (Qpdf.new_array s).2 c) 0).2 = [s.docid, s.docid, s.docid] ∧
    QpdfArray.get (QpdfArrayIterator.collect (Qpdf.new_array s).2 (fuel + 4)
      (QpdfArray.push
      (QpdfArray.push
        (QpdfArray.push (Qpdf.new_array s).1 (Qpdf.new_array s).2 a)
        (Qpdf.new_array s).2 b)
      (Qpdf.new_array s).2 c) 0).1 (Qpdf.new_array s).2 3 = ((QpdfArrayIterator.collect (Qpdf.new_array s).2 (fuel + 4)
      (QpdfArray.push
      (QpdfArray.push
        (QpdfArray.push (Qpdf.new_array s).1 (Qpdf.new_array s).2 a)
        (Qpdf.new_array s).2 b)
      (Qpdf.new_array s).2 c) 0).1, none) ∧
    List.map
      (fun o => engNode
        (QpdfArrayIterator.collect (Qpdf.new_array s).2 (fuel + 4) (QpdfArrayIterator.collect (Qpdf.new_array s).2 (fuel + 4)
      (QpdfArray.push
      (QpdfArray.push
        (QpdfArray.push (Qpdf.new_array s).1 (Qpdf.new_array s).2 a)
        (Qpdf.new_array s).2 b)
      (Qpdf.new_array s).2 c) 0).1 0).1
        o.inner)
      (QpdfArrayIterator.collect (Qpdf.new_array s).2 (fuel + 4) (QpdfArrayIterator.collect (Qpdf.new_array s).2 (fuel + 4)
      (QpdfArray.push
      (QpdfArray.push
        (QpdfArray.push (Qpdf.new_array s).1 (Qpdf.new_array s).2 a)
        (Qpdf.new_array s).2 b)
      (Qpdf.new_array s).2 c) 0).1 0).2 =
      [engNode s a.inner, engNode s b.inner, engNode s c.inner] := by
  have hane : a.inner ≠ s.nextOh := Nat.ne_of_lt (ohLive_lt_nextOh hla hwf)
  have hbne : b.inner ≠ s.nextOh := Nat.ne_of_lt (ohLive_lt_nextOh hlb hwf)
  have hcne : c.inner ≠ s.nextOh := Nat.ne_of_lt (ohLive_lt_nextOh hlc hwf)
  have harr : (Qpdf.new_array s).2 = (⟨s.docid, s.nextOh⟩ : QpdfObject) := rfl
  have hs3 : (QpdfArray.push
      (QpdfArray.push
        (QpdfArray.push (Qpdf.new_array s).1 (Qpdf.new_array s).2 a)
        (Qpdf.new_array s).2 b)
      (Qpdf.new_array s).2 c) = ({ s with
        handles := (s.nextOh, s.nextNode) :: s.handles,
        nodes := (s.nextNode,
          ⟨PdfValue.array [engNode s a.inner, engNode s b.inner,
             engNode s c.inner], 0, 0⟩) :: s.nodes,
        nextOh := s.nextOh + 1, nextNode := s.nextNode + 1 } : DocState) := by
    simp [Qpdf.new_array, engNewObject, engNewNode, engAllocHandle,
      QpdfArray.push, qpdf_oh_append_item, engValue, engNode, engNodeData,
      engSetNodeValue, aupd, alookup, hane, hbne, hcne]
  have hh1 : alookup s.nextOh (({ s with
        handles := (s.nextOh, s.nextNode) :: s.handles,
        nodes := (s.nextNode,
          ⟨PdfValue.array [engNode s a.inner, engNode s b.inner,
             engNode s c.inner], 0, 0⟩) :: s.nodes,
        nextOh := s.nextOh + 1, nextNode := s.nextNode + 1 } : DocState)).handles = some s.nextNode := by
    simp [alookup]
  have hn1 : alookup s.nextNode (({ s with
        handles := (s.nextOh, s.nextNode) :: s.handles,
        nodes := (s.nextNode,
          ⟨PdfValue.array [engNode s a.inner, engNode s b.inner,
             engNode s c.inner], 0, 0⟩) :: s.nodes,
        nextOh := s.nextOh + 1, nextNode := s.nextNode + 1 } : DocState)).nodes =
      some ⟨PdfValue.array [engNode s a.inner, engNode s b.inner,
        engNode s c.inner], 0, 0⟩ := by
    simp [alookup]
  have hlt1 : s.nextOh < (({ s with
        handles := (s.nextOh, s.nextNode) :: s.handles,
        nodes := (s.nextNode,
          ⟨PdfValue.array [engNode s a.inner, engNode s b.inner,
             engNode s c.inner], 0, 0⟩) :: s.nodes,
        nextOh := s.nextOh + 1, nextNode := s.nextNode + 1 } : DocState)).nextOh := by
    show s.nextOh < s.nextOh + 1
    omega
  obtain ⟨hc1, hmap1, hown1, hg3, hh2, hlt2⟩ :=
    collect3 (({ s with
        handles := (s.nextOh, s.nextNode) :: s.handles,
        nodes := (s.nextNode,
          ⟨PdfValue.array [engNode s a.inner, engNode s b.inner,
             engNode s c.inner], 0, 0⟩) :: s.nodes,
        nextOh := s.nextOh + 1, nextNode := s.nextNode + 1 } : DocState)) s.docid s.nextOh (engNode s a.inner)
      (engNode s b.inner) (engNode s c.inner) s.nextNode 0 0 fuel hh1 hn1 hlt1
  have hn2 := hn1
  obtain ⟨hc2, hmap2, hown2, hg3a, hh3, hlt3⟩ :=
    collect3 _ s.docid s.nextOh (engNode s a.inner)
      (engNode s b.inner) (engNode s c.inner) s.nextNode 0 0 fuel hh2 hn2 hlt2
  refine ⟨?_, ?_⟩
  · rw [hs3, harr]
    simp [QpdfArray.len, qpdf_oh_get_array_n_items, engValue, engNode,
      engNodeData, alookup]
  · rw [hs3, harr, hc1]
    exact ⟨hmap1, hown1, hg3, by rw [hc2]; exact hmap2⟩

/-- Witness for C9 at a concrete input: the three integer objects of a
three-object document, with no spare fuel. -/
theorem array_push_iteration_witness :
    (handlesBounded wD3 = true) ∧ (ohLive wD3 wA.inner = true) ∧
    (ohLive wD3 wB.inner = true) ∧ (ohLive wD3 wC.inner = true) ∧
    (QpdfArray.len
      (QpdfArray.push
      (QpdfArray.push
        (QpdfArray.push (Qpdf.new_array wD3).1 (Qpdf.new_array wD3).2 wA)
        (Qpdf.new_array wD3).2 wB)
      (Qpdf.new_array wD3).2 wC) (Qpdf.new_array wD3).2 = 3 ∧
    List.map (fun o => engNode (QpdfArrayIterator.collect (Qpdf.new_array wD3).2 (0 + 4)
      (QpdfArray.push
      (QpdfArray.push
        (QpdfArray.push (Qpdf.new_array wD3).1 (Qpdf.new_array wD3).2 wA)
        (Qpdf.new_array wD3).2 wB)
      (Qpdf.new_array wD3).2 wC) 0).1 o.inner) (QpdfArrayIterator.collect (Qpdf.new_array wD3).2 (0 + 4)
      (QpdfArray.push
      (QpdfArray.push
        (QpdfArray.push (Qpdf.new_array wD3).1 (Qpdf.new_array wD3).2 wA)
        (Qpdf.new_array wD3).2 wB)
      (Qpdf.new_array wD3).2 wC) 0).2 =
      [engNode wD3 wA.inner, engNode wD3 wB.inner, engNode wD3 wC.inner] ∧
    List.map (fun o => o.owner) (QpdfArrayIterator.collect (Qpdf.new_array wD3).2 (0 + 4)
      (QpdfArray.push
      (QpdfArray.push
        (QpdfArray.push (Qpdf.new_array wD3).1 (Qpdf.new_array wD3).2 wA)
        (Qpdf.new_array wD3).2 wB)
      (Qpdf.new_array wD3).2 wC) 0).2 = [wD3.docid, wD3.docid, wD3.docid] ∧
    QpdfArray.get (QpdfArrayIterator.collect (Qpdf.new_array wD3).2 (0 + 4)
      (QpdfArray.push
      (QpdfArray.push
        (QpdfArray.push (Qpdf.new_array wD3).1 (Qpdf.new_array wD3).2 wA)
        (Qpdf.new_array wD3).2 wB)
      (Qpdf.new_array wD3).2 wC) 0).1 (Qpdf.new_array wD3).2 3 = ((QpdfArrayIterator.collect (Qpdf.new_array wD3).2 (0 + 4)
      (QpdfArray.push
      (QpdfArray.push
        (QpdfArray.push (Qpdf.new_array wD3).1 (Qpdf.new_array wD3).2 wA)
        (Qpdf.new_array wD3).2 wB)
      (Qpdf.new_array wD3).2 wC) 0).1, none) ∧
    List.map
      (fun o => engNode
        (QpdfArrayIterator.collect (Qpdf.new_array wD3).2 (0 + 4) (QpdfArrayIterator.collect (Qpdf.new_array wD3).2 (0 + 4)
      (QpdfArray.push
      (QpdfArray.push
        (QpdfArray.push (Qpdf.new_array wD3).1 (Qpdf.new_array wD3).2 wA)
        (Qpdf.new_array wD3).2 wB)
      (Qpdf.new_array wD3).2 wC) 0).1 0).1
        o.inner)
      (QpdfArrayIterator.collect (Qpdf.new_array wD3).2 (0 + 4) (QpdfArrayIterator.collect (Qpdf.new_array wD3).2 (0 + 4)
      (QpdfArray.push
      (QpdfArray.push
        (QpdfArray.push (Qpdf.new_array wD3).1 (Qpdf.new_array wD3).2 wA)
        (Qpdf.new_array wD3).2 wB)
      (Qpdf.new_array wD3).2 wC) 0).1 0).2 =
      [engNode wD3 wA.inner, engNode wD3 wB.inner, engNode wD3 wC.inner]) :=
  ⟨by decide, by decide, by decide, by decide,
    array_push_iteration wD3 wA wB wC 0 (by decide) (by decide) (by decide)
      (by decide)⟩


theorem engValue_alloc (s : DocState) (n : Nat) :
    engValue (engAllocHandle s n).1 (engAllocHandle s n).2 =
      (engNodeData s n).value := by
  simp [engAllocHandle, engValue, engNode, engNodeData, alookup]

theorem engNode_alloc (s : DocState) (n : Nat) :
    engNode (engAllocHandle s n).1 (engAllocHandle s n).2 = n := by
  simp [engAllocHandle, engNode, alookup]

theorem type_code_null_iff (s : DocState) (oh : Nat) :
    qpdf_oh_get_type_code s oh = QpdfObjectType.Null ↔
      engValue s oh = PdfValue.null := by
  rcases h : engValue s oh <;> simp [qpdf_oh_get_type_code, h]

/-! ### Claim C3 -/

/-- C3 counterexample: storing the explicit PDF null object under a key and
reading it back yields `None`, not `Some`, contradicting the claim's
unconditional `get(set(d, k, v), k) = Some(v')`; and a key containing an
embedded NUL byte makes `set` panic (the `CString::new(key).unwrap()`),
so the equations do not hold for every key. -/
theorem dict_set_null_get_counterexample :
    ((QpdfDictionary.set (Qpdf.new_null (Qpdf.new_dictionary (emptyDoc 0)).1).1
        (Qpdf.new_dictionary (emptyDoc 0)).2 "/K"
        (Qpdf.new_null (Qpdf.new_dictionary (emptyDoc 0)).1).2).bind fun s1 =>
      (QpdfDictionary.get s1 (Qpdf.new_dictionary (emptyDoc 0)).2 "/K").map
        fun p => p.2) = some none ∧
    QpdfDictionary.set (Qpdf.new_null (Qpdf.new_dictionary (emptyDoc 0)).1).1
      (Qpdf.new_dictionary (emptyDoc 0)).2 "a\x00b"
      (Qpdf.new_null (Qpdf.new_dictionary (emptyDoc 0)).1).2 = none :=
  ⟨by decide, by decide⟩

/-- C3 (amended): for every dictionary handle d, NUL-free keys k and k2, a
value v whose node is not PDF null, and a value w whose node is PDF null:
`get` after `set d k v` returns `Some` of a handle aliasing v's node;
`get` after `remove` after `set` returns `None`; `get` at a key with no
entry returns `None`; and `get` after storing the null value w returns
`None`. -/
theorem dict_get_set_remove (s : DocState) (d v w : QpdfObject) (k k2 : String)
    (hd : isDictOh s d.inner = true)
    (hk : containsNul k = false)
    (hk2 : containsNul k2 = false)
    (hv : engValue s v.inner ≠ PdfValue.null)
    (hw : engValue s w.inner = PdfValue.null)
    (habs : dictHasEntry s d.inner k2 = false) :
    ((QpdfDictionary.set s d k v).bind fun s1 =>
      (QpdfDictionary.get s1 d k).map fun p =>
        p.2.map fun o => engNode p.1 o.inner) =
      some (some (engNode s v.inner)) ∧
    ((QpdfDictionary.set s d k v).bind fun s1 =>
      (QpdfDictionary.remove s1 d k).bind fun s2 =>
      (QpdfDictionary.get s2 d k).map fun p => p.2) = some none ∧
    ((QpdfDictionary.get s d k2).map fun p => p.2) = some none ∧
    ((QpdfDictionary.set s d k w).bind fun s1 =>
      (QpdfDictionary.get s1 d k).map fun p => p.2) = some none := by
  rw [isDictOh] at hd
  rcases hve : engValue s d.inner with _|_|_|_|_|_|_|_|_|entries|_|_|_ <;>
    rw [hve] at hd <;> simp at hd
  have hdnsome : (alookup (engNode s d.inner) s.nodes).isSome = true :=
    nodes_isSome_of_engValue_ne s d.inner (by rw [hve]; intro hc; cases hc)
  have hset : QpdfDictionary.set s d k v =
      some (engSetNodeValue s (engNode s d.inner)
        (.dict (dinsert k (engNode s v.inner) entries))) := by
    simp [QpdfDictionary.set, cstring_new, hk, qpdf_oh_replace_key, hve]
  have hs1nodes : (alookup (engNode (engSetNodeValue s (engNode s d.inner)
      (.dict (dinsert k (engNode s v.inner) entries))) d.inner)
      (engSetNodeValue s (engNode s d.inner)
        (.dict (dinsert k (engNode s v.inner) entries))).nodes).isSome = true := by
    rw [engNode_setNodeValue, engSetNodeValue]
    show (alookup (engNode s d.inner) (aupd (engNode s d.inner) _ s.nodes)).isSome = true
    rw [alookup_aupd_self]
    simpa using hdnsome
  refine ⟨?_, ?_, ?_, ?_⟩
  · rw [hset, Option.some_bind]
    have hval1 : (engNodeData (engSetNodeValue s (engNode s d.inner)
        (.dict (dinsert k (engNode s v.inner) entries)))
        (engNode s v.inner)).value ≠ PdfValue.null := by
      by_cases hvd : engNode s v.inner = engNode s d.inner
      · rw [hvd, engNodeData_setNodeValue_self _ _ _ hdnsome]
        simp
      · rw [engNodeData_setNodeValue_ne _ _ _ _ hvd]
        exact hv
    simp [QpdfDictionary.get, cstring_new, hk, qpdf_oh_get_key,
      engValue_setNodeValue_self _ _ _ hdnsome, alookup_dinsert_self,
      type_code_null_iff, engValue_alloc, engNode_alloc, hval1]
  · rw [hset, Option.some_bind]
    have hrem : QpdfDictionary.remove (engSetNodeValue s (engNode s d.inner)
        (.dict (dinsert k (engNode s v.inner) entries))) d k =
        some (engSetNodeValue (engSetNodeValue s (engNode s d.inner)
          (.dict (dinsert k (engNode s v.inner) entries))) (engNode s d.inner)
          (.dict (aerase k (dinsert k (engNode s v.inner) entries)))) := by
      simp [QpdfDictionary.remove, cstring_new, hk, qpdf_oh_remove_key,
        engValue_setNodeValue_self _ _ _ hdnsome]
      rfl
    rw [hrem, Option.some_bind]
    have hlook1 : (alookup (engNode s d.inner)
        (engSetNodeValue s (engNode s d.inner)
          (.dict (dinsert k (engNode s v.inner) entries))).nodes).isSome = true := by
      rw [engSetNodeValue]
      show (alookup (engNode s d.inner)
        (aupd (engNode s d.inner) _ s.nodes)).isSome = true
      rw [alookup_aupd_self]
      simpa using hdnsome
    have heq2 : engValue
        (engSetNodeValue (engSetNodeValue s (engNode s d.inner)
          (.dict (dinsert k (engNode s v.inner) entries)))
          (engNode s d.inner)
          (.dict (aerase k (dinsert k (engNode s v.inner) entries)))) d.inner =
        .dict (aerase k (dinsert k (engNode s v.inner) entries)) :=
      engValue_setNodeValue_eq _ _ _ _ rfl hlook1
    simp [QpdfDictionary.get, cstring_new, hk, qpdf_oh_get_key, heq2,
      alookup_aerase_self, engNewObject, type_code_null_iff, engValue_alloc,
      engNode_alloc, engNewNode, engNodeData, alookup, qpdf_oh_release]
  · rw [dictHasEntry, hve] at habs
    have habs2 : alookup k2 entries = none := by simpa using habs
    simp [QpdfDictionary.get, cstring_new, hk2, qpdf_oh_get_key, hve, habs2,
      engNewObject, type_code_null_iff, engValue_alloc, engNode_alloc,
      engNewNode, engNodeData, alookup, qpdf_oh_release]
  · have hwd : engNode s w.inner ≠ engNode s d.inner := by
      intro hc
      rw [engValue, hc] at hw
      rw [engValue] at hve
      rw [hve] at hw
      cases hw
    have hsetw : QpdfDictionary.set s d k w =
        some (engSetNodeValue s (engNode s d.inner)
          (.dict (dinsert k (engNode s w.inner) entries))) := by
      simp [QpdfDictionary.set, cstring_new, hk, qpdf_oh_replace_key, hve]
    rw [hsetw, Option.some_bind]
    have hvalw : (engNodeData (engSetNodeValue s (engNode s d.inner)
        (.dict (dinsert k (engNode s w.inner) entries)))
        (engNode s w.inner)).value = PdfValue.null := by
      rw [engNodeData_setNodeValue_ne _ _ _ _ hwd]
      exact hw
    simp [QpdfDictionary.get, cstring_new, hk, qpdf_oh_get_key,
      engValue_setNodeValue_self _ _ _ hdnsome, alookup_dinsert_self,
      type_code_null_iff, engValue_alloc, engNode_alloc, hvalw,
      qpdf_oh_release]

/-- Witness for C3 at a concrete input: a fresh dictionary, a boolean value,
the null object, keys "/K" and "/Absent". -/
theorem dict_get_set_remove_witness :
    (isDictOh wSd wDict.inner = true) ∧
    (containsNul "/K" = false) ∧ (containsNul "/Absent" = false) ∧
    (engValue wSd wV.inner ≠ PdfValue.null) ∧
    (engValue wSd wW.inner = PdfValue.null) ∧
    (dictHasEntry wSd wDict.inner "/Absent" = false) ∧
    (((QpdfDictionary.set wSd wDict "/K" wV).bind fun s1 =>
      (QpdfDictionary.get s1 wDict "/K").map fun p =>
        p.2.map fun o => engNode p.1 o.inner) =
      some (some (engNode wSd wV.inner)) ∧
    ((QpdfDictionary.set wSd wDict "/K" wV).bind fun s1 =>
      (QpdfDictionary.remove s1 wDict "/K").bind fun s2 =>
      (QpdfDictionary.get s2 wDict "/K").map fun p => p.2) = some none ∧
    ((QpdfDictionary.get wSd wDict "/Absent").map fun p => p.2) = some none ∧
    ((QpdfDictionary.set wSd wDict "/K" wW).bind fun s1 =>
      (QpdfDictionary.get s1 wDict "/K").map fun p => p.2) = some none) :=
  ⟨by decide, by decide, by decide, by decide, by decide, by decide,
    dict_get_set_remove wSd wDict wV wW "/K" "/Absent" (by decide) (by decide)
      (by decide) (by decide) (by decide) (by decide)⟩

/-! ### Claim C5 -/

/-- C5 counterexample: two string-argument operations named by the claim do
not turn an embedded NUL into `Err(InvalidParameter)`: the dictionary-key
operation `has` panics (its `CString::new(key).unwrap()`), and a password
with an embedded NUL in `do_load_memory` is silently dropped
(`CString::new(p).ok()`), so loading succeeds — here with an engine whose
read reports no error — instead of failing with `InvalidParameter`. -/
theorem nul_handling_counterexample :
    QpdfDictionary.has wSd wDict "a\x00b" = none ∧
    (Qpdf.do_load_memory (fun s _ _ => s) (emptyDoc 0) [] (some "a\x00b")).2 =
      Except.ok () :=
  ⟨by decide, rfl⟩

/-- C5 (amended): operations converting the string with `CString::new(..)?`
return `Err` with code `InvalidParameter` on an embedded NUL without
consulting the engine — `parse_object` (for any engine behaviour `eng` the
state is returned unchanged with the `NulError` translation) and the
writer's `write` path conversion; the `From<NulError>` translation carries
code `InvalidParameter`.  By contrast the dictionary-key operation `has`
panics on an embedded NUL, and a NUL-containing load password behaves
exactly like passing no password at all. -/
theorem nul_string_handling (eng : DocState → String → DocState × Nat)
    (engRead : DocState → List Nat → Option String → DocState)
    (s : DocState) (d : QpdfObject) (t k p path : String) (buf : List Nat)
    (w : QPdfWriter)
    (ht : containsNul t = true) (hk : containsNul k = true)
    (hp : containsNul p = true) (hpath : containsNul path = true) :
    Qpdf.parse_object eng s t = (s, .error qpdfErrorOfNul) ∧
    QPdfWriter.write w path = ([], some qpdfErrorOfNul) ∧
    qpdfErrorOfNul.error_code = QPdfErrorCode.InvalidParameter ∧
    QpdfDictionary.has s d k = none ∧
    Qpdf.do_load_memory engRead s buf (some p) =
      Qpdf.do_load_memory engRead s buf none := by
  refine ⟨?_, ?_, rfl, ?_, ?_⟩
  · simp [Qpdf.parse_object, cstring_new, ht]
  · simp [QPdfWriter.write, cstring_new, hpath]
  · simp [QpdfDictionary.has, cstring_new, hk]
  · simp [Qpdf.do_load_memory, cstring_new, hp]

/-- Witness for C5 at a concrete input: the NUL-containing string "a\x00b"
for every string argument, a trivial engine, and the fixture dictionary. -/
theorem nul_string_handling_witness :
    (containsNul "a\x00b" = true) ∧
    (Qpdf.parse_object (fun s _ => (s, 0)) wSd "a\x00b" =
      (wSd, .error qpdfErrorOfNul) ∧
    QPdfWriter.write QPdfWriter.new "a\x00b" = ([], some qpdfErrorOfNul) ∧
    qpdfErrorOfNul.error_code = QPdfErrorCode.InvalidParameter ∧
    QpdfDictionary.has wSd wDict "a\x00b" = none ∧
    Qpdf.do_load_memory (fun s _ _ => s) wSd [] (some "a\x00b") =
      Qpdf.do_load_memory (fun s _ _ => s) wSd [] none) :=
  ⟨by decide,
    nul_string_handling (fun s _ => (s, 0)) (fun s _ _ => s) wSd wDict
      "a\x00b" "a\x00b" "a\x00b" "a\x00b" [] QPdfWriter.new
      (by decide) (by decide) (by decide) (by decide)⟩

/-! ### Claim C6 -/

theorem mem_optCall {α : Type} {c : EngineCall} {o : Option α}
    {f : α → EngineCall} (h : c ∈ optCall o f) : ∃ a, o = some a ∧ c = f a := by
  cases o with
  | none => simp [optCall] at h
  | some a =>
    simp [optCall] at h
    exact ⟨a, rfl, h⟩

theorem mem_seqT {c : EngineCall} {a b : List EngineCall × Option QPdfError}
    (h : c ∈ (seqT a b).1) : c ∈ a.1 ∨ (a.2 = none ∧ c ∈ b.1) := by
  cases ha : a.2 with
  | none =>
    rw [seqT] at h
    simp [ha] at h
    rcases h with h | h
    · exact Or.inl h
    · exact Or.inr ⟨rfl, h⟩
  | some e =>
    rw [seqT] at h
    simp [ha] at h
    exact Or.inl h

theorem seqT_none_iff {a b : List EngineCall × Option QPdfError} :
    (seqT a b).2 = none ↔ a.2 = none ∧ b.2 = none := by
  cases ha : a.2 <;> simp [seqT, ha]

theorem mem_infallibleCalls {w : QPdfWriter} {c : EngineCall}
    (h : c ∈ QPdfWriter.infallibleCalls w) :
    ∃ fno, EngineCall.field c = some fno ∧ fno < 10 ∧
      QPdfWriter.staged w fno = true := by
  rw [QPdfWriter.infallibleCalls] at h
  simp only [List.mem_append] at h
  rcases h with ((((((((h|h)|h)|h)|h)|h)|h)|h)|h)|h <;>
    obtain ⟨a, ho, rfl⟩ := mem_optCall h
  · exact ⟨0, rfl, by omega, by simp [QPdfWriter.staged, ho]⟩
  · exact ⟨1, rfl, by omega, by simp [QPdfWriter.staged, ho]⟩
  · exact ⟨2, rfl, by omega, by simp [QPdfWriter.staged, ho]⟩
  · exact ⟨3, rfl, by omega, by simp [QPdfWriter.staged, ho]⟩
  · exact ⟨4, rfl, by omega, by simp [QPdfWriter.staged, ho]⟩
  · exact ⟨5, rfl, by omega, by simp [QPdfWriter.staged, ho]⟩
  · exact ⟨6, rfl, by omega, by simp [QPdfWriter.staged, ho]⟩
  · exact ⟨7, rfl, by omega, by simp [QPdfWriter.staged, ho]⟩
  · exact ⟨8, rfl, by omega, by simp [QPdfWriter.staged, ho]⟩
  · exact ⟨9, rfl, by omega, by simp [QPdfWriter.staged, ho]⟩

theorem mem_verStage {c : EngineCall} {o : Option String}
    {f : String → EngineCall} (h : c ∈ (verStage o f).1) :
    ∃ cv, c = f cv ∧ o.isSome = true := by
  cases o with
  | none => simp [verStage] at h
  | some v =>
    rcases hc : cstring_new v with _ | cv
    · simp [verStage, hc] at h
    · simp [verStage, hc] at h
      exact ⟨cv, h, rfl⟩

theorem mem_encStage {c : EngineCall} {o : Option EncryptionParams}
    (h : c ∈ (encStage o).1) :
    o.isSome = true ∧ EngineCall.field c = some 12 := by
  cases o with
  | none => simp [encStage] at h
  | some p =>
    refine ⟨rfl, ?_⟩
    cases p with
    | R2 r =>
      rcases hu : cstring_new r.user_password with _ | u
      · simp [encStage, QPdfWriter.set_encryption_params, hu] at h
      · rcases ho : cstring_new r.owner_password with _ | o2
        · simp [encStage, QPdfWriter.set_encryption_params, hu, ho] at h
        · simp [encStage, QPdfWriter.set_encryption_params, hu, ho] at h
          subst h
          rfl
    | R3 r =>
      rcases hu : cstring_new r.user_password with _ | u
      · simp [encStage, QPdfWriter.set_encryption_params, hu] at h
      · rcases ho : cstring_new r.owner_password with _ | o2
        · simp [encStage, QPdfWriter.set_encryption_params, hu, ho] at h
        · simp [encStage, QPdfWriter.set_encryption_params, hu, ho] at h
          subst h
          rfl
    | R4 r =>
      rcases hu : cstring_new r.user_password with _ | u
      · simp [encStage, QPdfWriter.set_encryption_params, hu] at h
      · rcases ho : cstring_new r.owner_password with _ | o2
        · simp [encStage, QPdfWriter.set_encryption_params, hu, ho] at h
        · simp [encStage, QPdfWriter.set_encryption_params, hu, ho] at h
          subst h
          rfl
    | R6 r =>
      rcases hu : cstring_new r.user_password with _ | u
      · simp [encStage, QPdfWriter.set_encryption_params, hu] at h
      · rcases ho : cstring_new r.owner_password with _ | o2
        · simp [encStage, QPdfWriter.set_encryption_params, hu, ho] at h
        · simp [encStage, QPdfWriter.set_encryption_params, hu, ho] at h
          subst h
          rfl

theorem mem_process_params {w : QPdfWriter} {c : EngineCall}
    (h : c ∈ (QPdfWriter.process_params w).1) :
    ∃ fno, EngineCall.field c = some fno ∧ QPdfWriter.staged w fno = true := by
  rw [QPdfWriter.process_params] at h
  rcases mem_seqT h with h | ⟨-, h⟩
  · obtain ⟨fno, hf, -, hs⟩ := mem_infallibleCalls h
    exact ⟨fno, hf, hs⟩
  rcases mem_seqT h with h | ⟨-, h⟩
  · obtain ⟨cv, rfl, hsome⟩ := mem_verStage h
    exact ⟨10, rfl, by simp [QPdfWriter.staged, hsome]⟩
  rcases mem_seqT h with h | ⟨-, h⟩
  · obtain ⟨cv, rfl, hsome⟩ := mem_verStage h
    exact ⟨11, rfl, by simp [QPdfWriter.staged, hsome]⟩
  · obtain ⟨hsome, hf⟩ := mem_encStage h
    exact ⟨12, hf, by simp [QPdfWriter.staged, hsome]⟩

theorem write_not_mem_pp (w : QPdfWriter) :
    EngineCall.qpdfWriteCall ∉ (QPdfWriter.process_params w).1 := by
  intro h
  obtain ⟨fno, hf, -⟩ := mem_process_params h
  exact absurd hf (by simp [EngineCall.field])

theorem wtm_fst (w : QPdfWriter) : (QPdfWriter.write_to_memory w).1 =
    .initWriteMemory :: ((QPdfWriter.process_params w).1 ++
      (match (QPdfWriter.process_params w).2 with
       | none => [EngineCall.qpdfWriteCall]
       | some _ => [])) := by
  rw [QPdfWriter.write_to_memory]
  cases h : (QPdfWriter.process_params w).2 <;> simp [seqT, h]

theorem wtm_snd (w : QPdfWriter) :
    (QPdfWriter.write_to_memory w).2 = (QPdfWriter.process_params w).2 := by
  rw [QPdfWriter.write_to_memory]
  cases h : (QPdfWriter.process_params w).2 <;> simp [seqT, h]

theorem encStage_success {p : EncryptionParams}
    (h : (encStage (some p)).2 = none) :
    ∃ c, (encStage (some p)).1 = [c] ∧ EngineCall.field c = some 12 := by
  cases p with
  | R2 r =>
    rcases hu : cstring_new r.user_password with _ | u
    · simp [encStage, QPdfWriter.set_encryption_params, hu] at h
    · rcases ho : cstring_new r.owner_password with _ | o2
      · simp [encStage, QPdfWriter.set_encryption_params, hu, ho] at h
      · exact ⟨.setR2EncryptionParameters u o2 r.allow_print r.allow_modify
            r.allow_extract r.allow_annotate,
          by simp [encStage, QPdfWriter.set_encryption_params, hu, ho], rfl⟩
  | R3 r =>
    rcases hu : cstring_new r.user_password with _ | u
    · simp [encStage, QPdfWriter.set_encryption_params, hu] at h
    · rcases ho : cstring_new r.owner_password with _ | o2
      · simp [encStage, QPdfWriter.set_encryption_params, hu, ho] at h
      · exact ⟨.setR3EncryptionParameters u o2 r.allow_accessibility
            r.allow_extract r.allow_assemble r.allow_annotate_and_form
            r.allow_form_filling r.allow_modify_other r.allow_print,
          by simp [encStage, QPdfWriter.set_encryption_params, hu, ho], rfl⟩
  | R4 r =>
    rcases hu : cstring_new r.user_password with _ | u
    · simp [encStage, QPdfWriter.set_encryption_params, hu] at h
    · rcases ho : cstring_new r.owner_password with _ | o2
      · simp [encStage, QPdfWriter.set_encryption_params, hu, ho] at h
      · exact ⟨.setR4EncryptionParameters u o2 r.allow_accessibility
            r.allow_extract r.allow_assemble r.allow_annotate_and_form
            r.allow_form_filling r.allow_modify_other r.allow_print
            r.encrypt_metadata r.use_aes,
          by simp [encStage, QPdfWriter.set_encryption_params, hu, ho], rfl⟩
  | R6 r =>
    rcases hu : cstring_new r.user_password with _ | u
    · simp [encStage, QPdfWriter.set_encryption_params, hu] at h
    · rcases ho : cstring_new r.owner_password with _ | o2
      · simp [encStage, QPdfWriter.set_encryption_params, hu, ho] at h
      · exact ⟨.setR6EncryptionParameters u o2 r.allow_accessibility
            r.allow_extract r.allow_assemble r.allow_annotate_and_form
            r.allow_form_filling r.allow_modify_other r.allow_print
            r.encrypt_metadata,
          by simp [encStage, QPdfWriter.set_encryption_params, hu, ho], rfl⟩

theorem pp_of_min_nul {w : QPdfWriter}
    (h : QPdfWriter.minVersionHasNul w = true) :
    QPdfWriter.process_params w =
      (QPdfWriter.infallibleCalls w, some qpdfErrorOfNul) := by
  rw [QPdfWriter.minVersionHasNul] at h
  rcases hm : w.min_pdf_version with _ | v
  · rw [hm] at h
    simp at h
  · rw [hm] at h
    simp at h
    rw [QPdfWriter.process_params, hm]
    simp [verStage, cstring_new, h, seqT]

theorem staged_applied {w : QPdfWriter}
    (hs : (QPdfWriter.process_params w).2 = none) {fno : Nat}
    (hst : QPdfWriter.staged w fno = true) :
    ∃ c, c ∈ (QPdfWriter.process_params w).1 ∧
      EngineCall.field c = some fno := by
  rw [QPdfWriter.process_params, seqT_none_iff] at hs
  obtain ⟨-, hs⟩ := hs
  rw [seqT_none_iff] at hs
  obtain ⟨h10, hs⟩ := hs
  rw [seqT_none_iff] at hs
  obtain ⟨h11, henc⟩ := hs
  have hfst : (QPdfWriter.process_params w).1 =
      QPdfWriter.infallibleCalls w ++
        ((verStage w.min_pdf_version .setMinimumPdfVersion).1 ++
          ((verStage w.force_pdf_version .forcePdfVersion).1 ++
            (encStage w.encryption_params).1)) := by
    rw [QPdfWriter.process_params]
    simp [seqT, h10, h11]
  rcases fno with _|_|_|_|_|_|_|_|_|_|_|_|_|fno
  · simp only [QPdfWriter.staged] at hst
    obtain ⟨a, ha⟩ := Option.isSome_iff_exists.mp hst
    refine ⟨.setCompressStreams a, ?_, rfl⟩
    rw [hfst]
    exact List.mem_append_left _
      (by simp [QPdfWriter.infallibleCalls, optCall, ha])
  · simp only [QPdfWriter.staged] at hst
    obtain ⟨a, ha⟩ := Option.isSome_iff_exists.mp hst
    refine ⟨.setPreserveUnreferencedObjects a, ?_, rfl⟩
    rw [hfst]
    exact List.mem_append_left _
      (by simp [QPdfWriter.infallibleCalls, optCall, ha])
  · simp only [QPdfWriter.staged] at hst
    obtain ⟨a, ha⟩ := Option.isSome_iff_exists.mp hst
    refine ⟨.setContentNormalization a, ?_, rfl⟩
    rw [hfst]
    exact List.mem_append_left _
      (by simp [QPdfWriter.infallibleCalls, optCall, ha])
  · simp only [QPdfWriter.staged] at hst
    obtain ⟨a, ha⟩ := Option.isSome_iff_exists.mp hst
    refine ⟨.setPreserveEncryption a, ?_, rfl⟩
    rw [hfst]
    exact List.mem_append_left _
      (by simp [QPdfWriter.infallibleCalls, optCall, ha])
  · simp only [QPdfWriter.staged] at hst
    obtain ⟨a, ha⟩ := Option.isSome_iff_exists.mp hst
    refine ⟨.setLinearization a, ?_, rfl⟩
    rw [hfst]
    exact List.mem_append_left _
      (by simp [QPdfWriter.infallibleCalls, optCall, ha])
  · simp only [QPdfWriter.staged] at hst
    obtain ⟨a, ha⟩ := Option.isSome_iff_exists.mp hst
    refine ⟨.setStaticId a, ?_, rfl⟩
    rw [hfst]
    exact List.mem_append_left _
      (by simp [QPdfWriter.infallibleCalls, optCall, ha])
  · simp only [QPdfWriter.staged] at hst
    obtain ⟨a, ha⟩ := Option.isSome_iff_exists.mp hst
    refine ⟨.setDeterministicId a, ?_, rfl⟩
    rw [hfst]
    exact List.mem_append_left _
      (by simp [QPdfWriter.infallibleCalls, optCall, ha])
  · simp only [QPdfWriter.staged] at hst
    obtain ⟨a, ha⟩ := Option.isSome_iff_exists.mp hst
    refine ⟨.setDecodeLevel a, ?_, rfl⟩
    rw [hfst]
    exact List.mem_append_left _
      (by simp [QPdfWriter.infallibleCalls, optCall, ha])
  · simp only [QPdfWriter.staged] at hst
    obtain ⟨a, ha⟩ := Option.isSome_iff_exists.mp hst
    refine ⟨.setObjectStreamMode a, ?_, rfl⟩
    rw [hfst]
    exact List.mem_append_left _
      (by simp [QPdfWriter.infallibleCalls, optCall, ha])
  · simp only [QPdfWriter.staged] at hst
    obtain ⟨a, ha⟩ := Option.isSome_iff_exists.mp hst
    refine ⟨.setStreamDataMode a, ?_, rfl⟩
    rw [hfst]
    exact List.mem_append_left _
      (by simp [QPdfWriter.infallibleCalls, optCall, ha])
  · simp only [QPdfWriter.staged] at hst
    obtain ⟨v, hv⟩ := Option.isSome_iff_exists.mp hst
    rcases hcv : cstring_new v with _ | cv
    · rw [hv] at h10
      simp [verStage, hcv] at h10
    · refine ⟨.setMinimumPdfVersion cv, ?_, rfl⟩
      rw [hfst]
      refine List.mem_append_right _ (List.mem_append_left _ ?_)
      simp [verStage, hv, hcv]
  · simp only [QPdfWriter.staged] at hst
    obtain ⟨v, hv⟩ := Option.isSome_iff_exists.mp hst
    rcases hcv : cstring_new v with _ | cv
    · rw [hv] at h11
      simp [verStage, hcv] at h11
    · refine ⟨.forcePdfVersion cv, ?_, rfl⟩
      rw [hfst]
      refine List.mem_append_right _
        (List.mem_append_right _ (List.mem_append_left _ ?_))
      simp [verStage, hv, hcv]
  · simp only [QPdfWriter.staged] at hst
    obtain ⟨p, hp⟩ := Option.isSome_iff_exists.mp hst
    rw [hp] at henc
    obtain ⟨c, hc1, hc2⟩ := encStage_success henc
    refine ⟨c, ?_, hc2⟩
    rw [hfst]
    refine List.mem_append_right _
      (List.mem_append_right _ (List.mem_append_right _ ?_))
    rw [hp, hc1]
    simp
  · exact absurd hst (by simp [QPdfWriter.staged])

theorem traceRespectsStaging_true (w : QPdfWriter) :
    QPdfWriter.traceRespectsStaging w = true := by
  rw [QPdfWriter.traceRespectsStaging, List.all_eq_true]
  intro c hc
  rw [wtm_fst] at hc
  rcases List.mem_cons.1 hc with rfl | hc
  · rfl
  rcases List.mem_append.1 hc with hc | hc
  · obtain ⟨fno, hf, hs⟩ := mem_process_params hc
    simp [hf, hs]
  · rcases hp : (QPdfWriter.process_params w).2 with _ | e
    · rw [hp] at hc
      simp at hc
      subst hc
      rfl
    · rw [hp] at hc
      simp at hc

theorem allStagedApplied_of_success {w : QPdfWriter}
    (h : (QPdfWriter.process_params w).2 = none) :
    QPdfWriter.allStagedApplied w = true := by
  rw [QPdfWriter.allStagedApplied, List.all_eq_true]
  intro fno hfno
  rcases hst : QPdfWriter.staged w fno with _ | _
  · simp
  · obtain ⟨c, hcmem, hcf⟩ := staged_applied h hst
    rw [Bool.not_true, Bool.false_or, List.any_eq_true]
    refine ⟨c, ?_, by simp [hcf]⟩
    rw [wtm_fst]
    exact List.mem_cons_of_mem _ (List.mem_append_left _ hcmem)

theorem laterStagesSkipped_of_min_nul {w : QPdfWriter}
    (h : QPdfWriter.minVersionHasNul w = true) :
    QPdfWriter.laterStagesSkipped w = true := by
  have hpp := pp_of_min_nul h
  rw [QPdfWriter.laterStagesSkipped, Bool.and_eq_true]
  have h2 : (QPdfWriter.write_to_memory w).2 = some qpdfErrorOfNul := by
    rw [wtm_snd, hpp]
  refine ⟨by simp [h2], ?_⟩
  rw [List.all_eq_true]
  intro c hc
  rw [wtm_fst, hpp] at hc
  simp only [List.append_nil] at hc
  rcases List.mem_cons.1 hc with rfl | hc
  · rfl
  obtain ⟨fno, hf, hlt, -⟩ := mem_infallibleCalls hc
  simp only [hf, Bool.and_eq_true, Bool.not_eq_eq_eq_not, Bool.not_true]
  constructor
  · simp
    omega
  · simp
    omega

/-- C6: `write(path)` and `write_to_memory()` first initialize a fresh write
context (file- or memory-targeted), then apply exactly the staged (`Some`)
writer options — every call in the trace corresponds to a staged option, and
on success every staged option has a call in the trace — abort with the
first error met while applying options (a NUL in the staged minimum-version
string aborts with the `InvalidParameter` conversion error before the
force-version and encryption stages), and issue the serialization call
`qpdf_write` exactly when every staged option was applied successfully. -/
theorem writer_applies_staged_options (w : QPdfWriter) (path : String)
    (hpath : containsNul path = false) :
    (QPdfWriter.write_to_memory w).1.head? = some .initWriteMemory ∧
    (QPdfWriter.write w path).1.head? = some (.initWriteFile path) ∧
    (QPdfWriter.write_to_memory w).2 = (QPdfWriter.process_params w).2 ∧
    (EngineCall.qpdfWriteCall ∈ (QPdfWriter.write_to_memory w).1 ↔
      (QPdfWriter.process_params w).2 = none) ∧
    QPdfWriter.traceRespectsStaging w = true ∧
    ((QPdfWriter.process_params w).2.isSome ||
      QPdfWriter.allStagedApplied w) = true ∧
    (!(QPdfWriter.minVersionHasNul w) ||
      QPdfWriter.laterStagesSkipped w) = true ∧
    qpdfErrorOfNul.error_code = QPdfErrorCode.InvalidParameter := by
  have hcp : cstring_new path = some path := by
    simp [cstring_new, hpath]
  refine ⟨by rw [wtm_fst]; rfl, ?_, wtm_snd w, ?_, traceRespectsStaging_true w,
    ?_, ?_, rfl⟩
  · rw [QPdfWriter.write, hcp]
    simp [seqT]
  · constructor
    · intro h
      rw [wtm_fst] at h
      rcases List.mem_cons.1 h with he | h
      · exact absurd he (by simp)
      rcases List.mem_append.1 h with h | h
      · exact absurd h (write_not_mem_pp w)
      · rcases hp : (QPdfWriter.process_params w).2 with _ | e
        · rfl
        · rw [hp] at h
          simp at h
    · intro hp
      rw [wtm_fst, hp]
      simp
  · rcases hp : (QPdfWriter.process_params w).2 with _ | e
    · simp [allStagedApplied_of_success hp]
    · simp
  · rcases hn : QPdfWriter.minVersionHasNul w with _ | _
    · simp
    · simp [laterStagesSkipped_of_min_nul hn]

/-- Witness for `writer_applies_staged_options` at a concrete writer (four
staged options, including a fallible version string and R2 encryption) and
a NUL-free path. -/
theorem writer_applies_staged_options_witness :
    containsNul "out.pdf" = false ∧
    ((QPdfWriter.write_to_memory wWr).1.head? = some .initWriteMemory ∧
     (QPdfWriter.write wWr "out.pdf").1.head? =
       some (.initWriteFile "out.pdf") ∧
     (QPdfWriter.write_to_memory wWr).2 = (QPdfWriter.process_params wWr).2 ∧
     (EngineCall.qpdfWriteCall ∈ (QPdfWriter.write_to_memory wWr).1 ↔
       (QPdfWriter.process_params wWr).2 = none) ∧
     QPdfWriter.traceRespectsStaging wWr = true ∧
     ((QPdfWriter.process_params wWr).2.isSome ||
       QPdfWriter.allStagedApplied wWr) = true ∧
     (!(QPdfWriter.minVersionHasNul wWr) ||
       QPdfWriter.laterStagesSkipped wWr) = true ∧
     qpdfErrorOfNul.error_code = QPdfErrorCode.InvalidParameter) :=
  ⟨by decide, writer_applies_staged_options wWr "out.pdf" (by decide)⟩

end QpdfRs
